import Mathlib

/-!
# irecord: device registry, rotating text log and event loop

A shallow embedding of `src/irecord.c`.  The process-wide variables of the C
program (`ufds`, `device_names`, `nfds`, the static `bytes_total` of
`write_event`, and the files the program writes) are gathered in the record
`World`; the variables fixed once the command line has been read (`logfile`,
`log_rotate_size`, `max_rotated_logs`) are gathered in `Config`.  Whatever the
operating system answers (results of `open`, `ioctl`, `fopen`, `realloc`,
`read`, `poll`, `localtime`) is an explicit argument of the function that asks.

Conventions.
* A C array is the list of the slots of its allocated block; `nfds` is kept
  apart, as in the source.  A slot of `device_names` that was never written is
  `none`.
* A C string is a `String`; `strlen` is `String.length` (one `Char` per byte).
  In `open_device`, `close_device`, `read_notify`, `rotate_logs` and
  `write_event`, `sprintf` and `strcpy` are the pure string functions.  The
  arrays `file0`, `file1` and `buf` that `rotate_logs` and `write_event` format
  into are in `rotate_logs_buf` and `write_event_buf`, further down, where a
  text that does not fit its array has no defined result.
* `int` values that only move inside `0 .. 2^31 - 1` by construction (`nfds`,
  loop indices) are `Nat`; the rotation counter, the event countdown and the
  byte counts of `read_notify` are `Int` and are wrapped to 32 bits after each
  update.
* A loop of the source is a function by recursion on the number of iterations
  left.
* Output on `stdout` and `stderr` is not part of the state.
-/

namespace Irecord

/-! ## Constants -/

/-- Poll flag `POLLIN` of `<sys/poll.h>`. -/
def POLLIN : Nat := 1

/-- Error number `EINTR` of `<errno.h>`. -/
def EINTR : Nat := 4

/-- Mask bit `IN_CREATE` of `<sys/inotify.h>`. -/
def IN_CREATE : Nat := 256

/-- Size in bytes of the fixed header of `struct inotify_event`. -/
def INOTIFY_EVENT_SIZE : Nat := 16

/-! ## Formatting (`printf` conversions) -/

/-- Digit character of a digit value below 16, lowercase as `%x` prints it. -/
def digitChar (d : Nat) : Char :=
  if d < 10 then Char.ofNat (48 + d) else Char.ofNat (87 + d)

/-- Digits of `n` in base `b`, least significant first; the empty list for 0.
The first argument bounds the number of digits produced. -/
def digitsLE (b : Nat) : Nat → Nat → List Nat
  | 0, _ => []
  | fuel + 1, n => if n = 0 then [] else (n % b) :: digitsLE b fuel (n / b)

/-- Conversion of an unsigned number with a minimum field width and the `0`
flag: the digits of `n`, most significant first, at least one digit, padded on
the left with zeros up to `width`. -/
def fmtUnsigned (b width n : Nat) : List Char :=
  let ds := if n = 0 then [0] else (digitsLE b n n).reverse
  List.replicate (width - ds.length) '0' ++ ds.map digitChar

/-- Conversion `%0<width>d` (and `%d` for width 0) of a signed number: a minus
sign, when there is one, comes first and counts in the width. -/
def fmt_d (width : Nat) (n : Int) : String :=
  if n < 0 then String.mk ('-' :: fmtUnsigned 10 (width - 1) n.natAbs)
  else String.mk (fmtUnsigned 10 width n.natAbs)

/-- Conversion `%0<width>x` of an argument passed as a 32-bit `int`: the
hexadecimal digits of its unsigned 32-bit image. -/
def fmt_x (width : Nat) (n : Int) : String :=
  String.mk (fmtUnsigned 16 width (n % 4294967296).toNat)

/-- The result of converting to a 32-bit `int`: reduction modulo 2^32 into
the range -2^31 .. 2^31 - 1. -/
def wrap32 (x : Int) : Int :=
  (x + 2147483648) % 4294967296 - 2147483648

/-! ## Files -/

/-- The files of the file system the program touches, by name: `none` when the
file does not exist, otherwise its content. -/
abbrev FS := String → Option String

/-- Effect of a successful `fopen(path, "a+b")`: the file exists afterwards. -/
def fopen_append (fs : FS) (path : String) : FS :=
  fun p => if p = path then some ((fs path).getD "") else fs p

/-- Effect of `fputs(s, fp)` on a stream opened for append on `path`. -/
def fputs (fs : FS) (path : String) (s : String) : FS :=
  fun p => if p = path then some ((fs path).getD "" ++ s) else fs p

/-- System call `rename(old, new)`: fails with `ENOENT`
(result `false`, files untouched) when `old` does not exist; otherwise `new`
gets the content of `old`, replacing what it held, and `old` is gone.  A rename
that the system refuses for another reason is in `rename_sys`. -/
def rename (fs : FS) (old new : String) : Bool × FS :=
  match fs old with
  | none => (false, fs)
  | some c => (true, fun p => if p = new then some c else if p = old then none else fs p)

/-! ## State -/

/-- One `struct pollfd`. -/
structure Pollfd where
  fd : Int
  events : Nat
  revents : Nat
deriving DecidableEq, Repr

/-- One `struct input_event`: the time stamp, and the event triple. -/
structure InputEvent where
  tv_sec : Int
  tv_usec : Int
  type : Nat
  code : Nat
  value : Int
deriving DecidableEq, Repr

/-- The variables fixed by the command line. -/
structure Config where
  logfile : String
  log_rotate_size : Int
  max_rotated_logs : Nat

/-- The mutable state of the process and of the files it writes.
`mirror` is the content of the binary event file, one entry per record written;
`rotations` counts the calls of `rotate_logs`. -/
structure World where
  ufds : List Pollfd
  device_names : List (Option String)
  nfds : Nat
  bytes_total : Int
  fs : FS
  mirror : List InputEvent
  rotations : Nat

/-- The state `main` sets up before the first device is opened: `nfds = 1`,
`ufds` a zeroed block of one entry holding the inotify descriptor,
`device_names` still the null pointer. -/
def World.init (inotify_fd : Int) (fs : FS) : World :=
  { ufds := [{ fd := inotify_fd, events := POLLIN, revents := 0 }]
    device_names := []
    nfds := 1
    bytes_total := 0
    fs := fs
    mirror := []
    rotations := 0 }

/-! ## Memory blocks -/

/-- Successful `realloc(arr, n * sizeof(arr[0]))`: the first `n` slots are
kept, new slots hold `junk`. -/
def realloc {α : Type} (arr : List α) (n : Nat) (junk : α) : List α :=
  arr.take n ++ List.replicate (n - arr.length) junk

/-- Call `memmove(arr + dst, arr + src, count * sizeof(arr[0]))`. -/
def memmove {α : Type} (arr : List α) (dst src count : Nat) : List α :=
  arr.take dst ++ ((arr.drop src).take count ++ arr.drop (dst + count))

/-! ## Device registry -/

/-- What the system answers during one call of `open_device`.  `errno` is the
error number left by a failed call; no library function sets it to zero. -/
structure OpenEnv where
  fopen_ok : Bool
  errno : Nat
  errno_pos : 0 < errno
  errstr : String
  fd : Int
  version_ok : Bool
  id_ok : Bool
  name : String
  bustype : Nat
  vendor : Nat
  product : Nat
  version : Nat
  ufds_alloc_ok : Bool
  names_alloc_ok : Bool
  junk : Pollfd

/-- Function `open_device` (irecord.c:408). -/
def open_device (cfg : Config) (device : String) (env : OpenEnv) (w : World) : Int × World :=
  if !env.fopen_ok then (-(env.errno : Int), w) else
  let fs0 := fopen_append w.fs cfg.logfile
  if env.fd < 0 then
    (-1, { w with fs := fputs fs0 cfg.logfile
                    ("could not open " ++ device ++ ", " ++ env.errstr ++ "\n") })
  else if !env.version_ok then
    (-1, { w with fs := fputs fs0 cfg.logfile
                    ("could not get driver version for " ++ device ++ ", " ++ env.errstr ++ "\n") })
  else if !env.id_ok then
    (-1, { w with fs := fputs fs0 cfg.logfile
                    ("could not get driver id for " ++ device ++ ", " ++ env.errstr ++ "\n") })
  else if !env.ufds_alloc_ok then (-1, { w with fs := fs0 })
  else
    let new_ufds := realloc w.ufds (w.nfds + 1) env.junk
    if !env.names_alloc_ok then (-1, { w with fs := fs0, ufds := new_ufds })
    else
      let new_device_names := realloc w.device_names (w.nfds + 1) none
      let fs1 := fputs fs0 cfg.logfile
        ("add device " ++ fmt_d 0 w.nfds ++ ":\t" ++ device ++ ",\tname: " ++ env.name ++ "\n")
      let fs2 := fputs fs1 cfg.logfile
        ("\t\tbus: " ++ fmt_x 4 env.bustype ++ "\tVID:PID  " ++ fmt_x 4 env.vendor ++ ":"
          ++ fmt_x 4 env.product ++ "\tversion  " ++ fmt_x 4 env.version ++ "\n\n")
      (0, { w with
              fs := fs2
              ufds := new_ufds.set w.nfds { fd := env.fd, events := POLLIN,
                                            revents := (new_ufds.getD w.nfds env.junk).revents }
              device_names := new_device_names.set w.nfds (some device)
              nfds := w.nfds + 1 })

/-- What the system answers during one call of `close_device`: whether `fopen`
succeeds, and the error number it leaves when it fails. -/
structure CloseEnv where
  fopen_ok : Bool
  errno : Nat
  errno_pos : 0 < errno

/-- The `for` loop of `close_device`, entered with loop variable `i` and
`n = nfds - i` iterations left. -/
def close_device_loop (cfg : Config) (device : String) (env : CloseEnv) (w : World) :
    Nat → Nat → Int × World
  | 0, _ => (-1, w)
  | n + 1, i =>
    if w.device_names[i]? = some (some device) then
      let count := w.nfds - i - 1
      if !env.fopen_ok then (-(env.errno : Int), w) else
      let fs1 := fputs (fopen_append w.fs cfg.logfile) cfg.logfile
        ("remove device: " ++ device ++ "\n")
      (0, { w with
              fs := fs1
              device_names := memmove w.device_names i (i + 1) count
              ufds := memmove w.ufds i (i + 1) count
              nfds := w.nfds - 1 })
    else close_device_loop cfg device env w n (i + 1)

/-- Function `close_device` (irecord.c:512). -/
def close_device (cfg : Config) (device : String) (env : CloseEnv) (w : World) : Int × World :=
  close_device_loop cfg device env w (w.nfds - 1) 1

/-! ## Event logger -/

/-- The `for` loop of `rotate_logs`, entered with loop variable `i`. -/
def rotate_logs_loop (logfile : String) (fs : FS) : Nat → FS
  | 0 => fs
  | i + 1 =>
    let file1 := logfile ++ "." ++ fmt_d 0 ((i + 1 : Nat) : Int)
    let file0 := if i = 0 then logfile else logfile ++ "." ++ fmt_d 0 (i : Int)
    rotate_logs_loop logfile (rename fs file0 file1).2 i

/-- Function `rotate_logs` (irecord.c:210), with names of any length and no
rename refused; `rotate_logs_buf` has the name arrays and the refused renames. -/
def rotate_logs (cfg : Config) (fs : FS) : FS :=
  rotate_logs_loop cfg.logfile fs cfg.max_rotated_logs

/-- The fields of `struct tm` that `write_event` prints. -/
structure Tm where
  tm_year : Int
  tm_mon : Int
  tm_mday : Int
  tm_hour : Int
  tm_min : Int
  tm_sec : Int

/-- What the system answers during one call of `write_event`: the result of
`write` on the binary file, `errno`, whether `fopen` succeeds, the result of
`localtime`, and whether each of the three `fputs` succeeds. -/
structure WriteEnv where
  write_res : Int
  errno : Nat
  errno_pos : 0 < errno
  fopen_ok : Bool
  tm : Tm
  fputs1_ok : Bool
  fputs2_ok : Bool
  fputs3_ok : Bool

/-- First text written by `write_event`: date and time. -/
def time_text (tm : Tm) (tv_usec : Int) : String :=
  "[" ++ fmt_d 0 (tm.tm_year + 1900) ++ fmt_d 2 (tm.tm_mon + 1) ++ fmt_d 2 tm.tm_mday ++ "-"
    ++ fmt_d 2 tm.tm_hour ++ ":" ++ fmt_d 2 tm.tm_min ++ ":" ++ fmt_d 2 tm.tm_sec ++ "."
    ++ fmt_d 6 tv_usec ++ "] "

/-- Second text written by `write_event`: device name. -/
def name_text (device_name : String) : String :=
  device_name ++ ": "

/-- Third text written by `write_event`: input event. -/
def event_text (event : InputEvent) : String :=
  fmt_x 4 event.type ++ " " ++ fmt_x 4 event.code ++ " " ++ fmt_x 8 event.value ++ "\n"

/-- Function `write_event` (irecord.c:235), with texts of any length;
`write_event_buf` has the array `buf`.  A `write` that does not fail is taken
to store the whole record; a failed `fputs` is taken to store nothing. -/
def write_event (cfg : Config) (event : InputEvent) (device_name : String) (env : WriteEnv)
    (w : World) : Int × World :=
  if env.write_res < 0 then (-(env.errno : Int), w) else
  let w0 := { w with mirror := w.mirror ++ [event] }
  if !env.fopen_ok then (-(env.errno : Int), w0) else
  let fs0 := fopen_append w.fs cfg.logfile
  if !env.fputs1_ok then (-(env.errno : Int), { w0 with fs := fs0 }) else
  let fs1 := fputs fs0 cfg.logfile (time_text env.tm event.tv_usec)
  let total1 := wrap32 (w.bytes_total + (time_text env.tm event.tv_usec).length)
  if !env.fputs2_ok then (-(env.errno : Int), { w0 with fs := fs1, bytes_total := total1 }) else
  let fs2 := fputs fs1 cfg.logfile (name_text device_name)
  let total2 := wrap32 (total1 + (name_text device_name).length)
  if !env.fputs3_ok then (-(env.errno : Int), { w0 with fs := fs2, bytes_total := total2 }) else
  let fs3 := fputs fs2 cfg.logfile (event_text event)
  let total3 := wrap32 (total2 + (event_text event).length)
  if cfg.log_rotate_size > 0 ∧ total3.tdiv 1024 ≥ cfg.log_rotate_size then
    (0, { w0 with fs := rotate_logs cfg fs3, bytes_total := 0, rotations := w.rotations + 1 })
  else
    (0, { w0 with fs := fs3, bytes_total := total3 })

/-! ## Hotplug watcher -/

/-- A call of the registry made by `read_notify`. -/
inductive RegistryCall where
  | add (device : String)
  | remove (device : String)
deriving DecidableEq, Repr

/-- What the system answers during one call of `read_notify`: the result of
`read` on the inotify descriptor, `errno`, the bytes of `event_buf`, and the
answers to the `open_device` or `close_device` call made for the record at a
given offset of the buffer. -/
structure NotifyEnv where
  res : Int
  errno : Nat
  event_buf : List Nat
  open_env : Nat → OpenEnv
  close_env : Nat → CloseEnv

/-- A little-endian `uint32_t` field at offset `pos` of a byte buffer. -/
def le32 (buf : List Nat) (pos : Nat) : Nat :=
  buf.getD pos 0 + 256 * buf.getD (pos + 1) 0 + 65536 * buf.getD (pos + 2) 0
    + 16777216 * buf.getD (pos + 3) 0

/-- The C string that starts at offset `pos` of a byte buffer. -/
def cstring (buf : List Nat) (pos : Nat) : String :=
  String.mk (((buf.drop pos).takeWhile (fun b => b != 0)).map Char.ofNat)

/-- The `while` loop of `read_notify`: at most `fuel` iterations, starting with
the given `res` and `event_pos`.  The result is the state, the registry calls
made so far (latest last) and the final `res`; the loop has ended by its own
test when that final `res` is below the size of a record header. -/
def read_notify_loop (cfg : Config) (dirname : String) (env : NotifyEnv) :
    Nat → Int → Int → World → List RegistryCall → World × List RegistryCall × Int
  | 0, res, _, w, calls => (w, calls, res)
  | fuel + 1, res, event_pos, w, calls =>
    if res < (INOTIFY_EVENT_SIZE : Int) then (w, calls, res) else
    let pos := event_pos.toNat
    let mask := le32 env.event_buf (pos + 4)
    let len := le32 env.event_buf (pos + 12)
    let devname := dirname ++ "/" ++ cstring env.event_buf (pos + 16)
    let event_size := wrap32 ((INOTIFY_EVENT_SIZE : Int) + len)
    if len ≠ 0 then
      if mask &&& IN_CREATE ≠ 0 then
        read_notify_loop cfg dirname env fuel (wrap32 (res - event_size))
          (wrap32 (event_pos + event_size)) (open_device cfg devname (env.open_env pos) w).2
          (calls ++ [RegistryCall.add devname])
      else
        read_notify_loop cfg dirname env fuel (wrap32 (res - event_size))
          (wrap32 (event_pos + event_size)) (close_device cfg devname (env.close_env pos) w).2
          (calls ++ [RegistryCall.remove devname])
    else
      read_notify_loop cfg dirname env fuel (wrap32 (res - event_size))
        (wrap32 (event_pos + event_size)) w calls

/-- Function `read_notify` (irecord.c:543): the returned status, the state and
the registry calls made. -/
def read_notify (cfg : Config) (dirname : String) (env : NotifyEnv) (w : World) :
    Int × World × List RegistryCall :=
  if env.res < (INOTIFY_EVENT_SIZE : Int) then
    if env.errno = EINTR then (0, w, []) else (1, w, [])
  else
    let r := read_notify_loop cfg dirname env env.res.toNat env.res 0 w []
    (0, r.1, r.2.1)

/-! ## Event loop -/

/-- Size in bytes of `struct input_event` (with a 64-bit `struct timeval`). -/
def INPUT_EVENT_SIZE : Nat := 24

/-- Directory watched by `main`. -/
def device_path : String := "/dev/input"

/-- What the system answers when a device is read in one wake cycle: the result
of `read`, the event stored, and the answers to the `write_event` call. -/
structure DevEnv where
  read_res : Int
  event : InputEvent
  wenv : WriteEnv

/-- One wake-up of `poll`: the `revents` it stores for each index below `nfds`,
and the answers to what the loop body does afterwards. -/
structure Cycle where
  revents : Nat → Nat
  notify : NotifyEnv
  dev : Nat → DevEnv

/-- The state of the event loop of `main`: the process state, the local
`event_count`, and whether `log_fd` is still open. -/
structure Loop where
  w : World
  event_count : Int
  log_fd_open : Bool

/-- Call `poll(ufds, nfds, -1)`: the first `nfds` entries get their `revents`. -/
def poll (w : World) (revents : Nat → Nat) : World :=
  let store : Nat → Pollfd → Pollfd :=
    fun i p => if i < w.nfds then { p with revents := revents i } else p
  { w with ufds := List.zipWith store (List.range w.ufds.length) w.ufds }

/-- The `revents` field of `ufds[i]`. -/
def revents_at (w : World) (i : Nat) : Nat :=
  match w.ufds[i]? with
  | some p => p.revents
  | none => 0

/-- The string `device_names[i]` points to. -/
def device_name_at (w : World) (i : Nat) : String :=
  match w.device_names[i]? with
  | some (some s) => s
  | _ => ""

/-- The `for` loop over the devices in the body of the event loop, entered with
loop variable `i` and `n = nfds - i` iterations left.  The first component is
the exit code when `main` returns from inside the loop. -/
def device_loop (cfg : Config) (cyc : Cycle) : Nat → Nat → Loop → Option Int × Loop
  | 0, _, l => (none, l)
  | n + 1, i, l =>
    if revents_at l.w i ≠ 0 ∧ revents_at l.w i &&& POLLIN ≠ 0 then
      if (cyc.dev i).read_res < (INPUT_EVENT_SIZE : Int) then
        (some 1, { l with log_fd_open := false })
      else
        let r := write_event cfg (cyc.dev i).event (device_name_at l.w i) (cyc.dev i).wenv l.w
        if r.1 < 0 then (some 1, { l with w := r.2, log_fd_open := false })
        else if l.event_count ≠ 0 then
          if wrap32 (l.event_count - 1) = 0 then
            (some 0, { w := r.2, event_count := 0, log_fd_open := false })
          else
            device_loop cfg cyc n (i + 1) { l with w := r.2, event_count := wrap32 (l.event_count - 1) }
        else device_loop cfg cyc n (i + 1) { l with w := r.2 }
    else device_loop cfg cyc n (i + 1) l

/-- One turn of the `while (1)` loop of `main`. -/
def main_cycle (cfg : Config) (cyc : Cycle) (l : Loop) : Option Int × Loop :=
  let w1 := poll l.w cyc.revents
  let w2 := if revents_at w1 0 &&& POLLIN ≠ 0 then (read_notify cfg device_path cyc.notify w1).2.1
            else w1
  device_loop cfg cyc (w2.nfds - 1) 1 { l with w := w2 }

/-- The `while (1)` loop of `main` run on the wake-ups given; `none` as exit
code when the loop is back in `poll` after the last of them. -/
def main_loop (cfg : Config) : List Cycle → Loop → Option Int × Loop
  | [], l => (none, l)
  | cyc :: rest, l =>
    match main_cycle cfg cyc l with
    | (some code, l1) => (some code, l1)
    | (none, l1) => main_loop cfg rest l1

/-! ## Fixed-width fields and file generations, as the format documents them -/

/-- The `w` low digits of `n` in base `b`, least significant first. -/
def fixedLE (b : Nat) : Nat → Nat → List Nat
  | 0, _ => []
  | w + 1, n => (n % b) :: fixedLE b w (n / b)

/-- A field of exactly `w` digits in base `b`, most significant first,
zero-padded, lowercase. -/
def fixedDigits (b w n : Nat) : String :=
  String.mk ((fixedLE b w n).reverse.map digitChar)

/-- Value of a digit character, lowercase for the digits above 9. -/
def digitVal (c : Char) : Nat :=
  if c.toNat < 58 then c.toNat - 48 else c.toNat - 87

/-- Value of a string of digits in base `b`, most significant first. -/
def parseDigits (b : Nat) (s : List Char) : Nat :=
  s.foldl (fun acc c => acc * b + digitVal c) 0

/-- The event triple read back from the last three fields of a line of the
text log: the 19 characters `tttt cccc vvvvvvvv\n` that end it. -/
def parse_triple (line : String) : Nat × Nat × Nat :=
  let t := line.data.drop (line.data.length - 19)
  (parseDigits 16 (t.take 4), parseDigits 16 ((t.drop 5).take 4),
    parseDigits 16 ((t.drop 10).take 8))

/-- The time field of a line of the text log, as the format documents it:
`[YYYYMMDD-HH:MM:SS.uuuuuu]` and a space, 27 characters. -/
def spec_time (year mon mday hour min sec usec : Nat) : String :=
  "[" ++ fixedDigits 10 4 year ++ fixedDigits 10 2 mon ++ fixedDigits 10 2 mday ++ "-"
    ++ fixedDigits 10 2 hour ++ ":" ++ fixedDigits 10 2 min ++ ":" ++ fixedDigits 10 2 sec ++ "."
    ++ fixedDigits 10 6 usec ++ "] "

/-- The event triple of a line of the text log, as the format documents it:
`tttt cccc vvvvvvvv` and a newline, 19 characters. -/
def spec_triple (type code value : Nat) : String :=
  fixedDigits 16 4 type ++ " " ++ fixedDigits 16 4 code ++ " " ++ fixedDigits 16 8 value ++ "\n"

/-- The line of the text log for one event, as the format documents it: the
time field, the name, a colon and a space, the event triple. -/
def spec_line (year mon mday hour min sec usec : Nat) (name : String) (type code value : Nat) :
    String :=
  spec_time year mon mday hour min sec usec ++ name ++ ": " ++ spec_triple type code value

/-- Name of generation `i` of the text log: the bare name for 0, otherwise the
name followed by a dot and the decimal number. -/
def generation (logfile : String) (i : Nat) : String :=
  if i = 0 then logfile else logfile ++ "." ++ fmt_d 0 (i : Int)

/-- A broken-down time as `localtime` returns it, with a four-digit year. -/
@[reducible] def Tm.valid (tm : Tm) : Prop :=
  1000 ≤ tm.tm_year + 1900 ∧ tm.tm_year + 1900 ≤ 9999 ∧ 0 ≤ tm.tm_mon ∧ tm.tm_mon ≤ 11 ∧
  1 ≤ tm.tm_mday ∧ tm.tm_mday ≤ 31 ∧ 0 ≤ tm.tm_hour ∧ tm.tm_hour ≤ 23 ∧
  0 ≤ tm.tm_min ∧ tm.tm_min ≤ 59 ∧ 0 ≤ tm.tm_sec ∧ tm.tm_sec ≤ 60

/-- Every step of `write_event` succeeds. -/
@[reducible] def WriteEnv.ok (env : WriteEnv) : Prop :=
  0 ≤ env.write_res ∧ env.fopen_ok = true ∧ env.fputs1_ok = true ∧ env.fputs2_ok = true ∧
  env.fputs3_ok = true

/-- The text one successful call of `write_event` appends to the text log. -/
def event_line (tm : Tm) (event : InputEvent) (device_name : String) : String :=
  time_text tm event.tv_usec ++ name_text device_name ++ event_text event

/-- The documented line for an event read at broken-down time `tm`: the fields
are the calendar values, the microseconds, the name given, the type, the code
and the unsigned 32-bit image of the value. -/
def spec_line_of (tm : Tm) (event : InputEvent) (name : String) : String :=
  spec_line (tm.tm_year + 1900).toNat (tm.tm_mon + 1).toNat tm.tm_mday.toNat tm.tm_hour.toNat
    tm.tm_min.toNat tm.tm_sec.toNat event.tv_usec.toNat name event.type event.code
    (event.value % 4294967296).toNat

/-! ## Sequences of registry operations -/

/-- One registry operation together with what the system answers during it. -/
inductive Op where
  | add (device : String) (env : OpenEnv)
  | remove (device : String) (env : CloseEnv)

/-- The registry operation `op` performed in state `w`: status and new state. -/
def apply_op (cfg : Config) (w : World) : Op → Int × World
  | Op.add device env => open_device cfg device env w
  | Op.remove device env => close_device cfg device env w

/-- The state after a sequence of registry operations. -/
def run_ops (cfg : Config) : World → List Op → World
  | w, [] => w
  | w, op :: ops => run_ops cfg (apply_op cfg w op).2 ops

/-- The (path, descriptor) pairs of the adds of a sequence that returned 0, in
the order of the sequence. -/
def added (cfg : Config) : World → List Op → List (String × Int)
  | _, [] => []
  | w, Op.add device env :: ops =>
    if (open_device cfg device env w).1 = 0 then
      (device, env.fd) :: added cfg (open_device cfg device env w).2 ops
    else added cfg (open_device cfg device env w).2 ops
  | w, Op.remove device env :: ops => added cfg (close_device cfg device env w).2 ops

/-- The number of adds that returned 0 minus the number of removes that
returned 0: the number of registered devices after the sequence. -/
def registered_count (cfg : Config) : World → List Op → Int
  | _, [] => 0
  | w, op :: ops =>
    (match op with
      | Op.add _ _ => if (apply_op cfg w op).1 = 0 then 1 else 0
      | Op.remove _ _ => if (apply_op cfg w op).1 = 0 then -1 else 0)
    + registered_count cfg (apply_op cfg w op).2 ops

/-- Whether some device entry (index 1 to `nfds - 1`) holds the path. -/
def holds (w : World) (device : String) : Bool :=
  ((w.device_names.take w.nfds).drop 1).contains (some device)

/-- Whether every add of the sequence is for a path that no device entry holds
at the moment of the add. -/
def adds_fresh (cfg : Config) : World → List Op → Bool
  | _, [] => true
  | w, Op.add device env :: ops =>
    !holds w device && adds_fresh cfg (open_device cfg device env w).2 ops
  | w, Op.remove device env :: ops => adds_fresh cfg (close_device cfg device env w).2 ops

/-- The registry arrays hold, at the indices 1 to `nfds - 1` and in this order,
the paths and descriptors of the list `l`, with read interest. -/
def Aligned (w : World) (l : List (String × Int)) : Prop :=
  w.nfds = l.length + 1 ∧ w.nfds ≤ w.ufds.length ∧
  ∀ j e, l[j]? = some e →
    w.device_names[j + 1]? = some (some e.1) ∧
    (w.ufds[j + 1]?).map (fun p => (p.fd, p.events)) = some (e.2, POLLIN)

/-! ## Sample inputs -/

/-- A configuration: log `log.txt`, rotation every kilobyte, two generations. -/
def cfg1 : Config := { logfile := "log.txt", log_rotate_size := 1, max_rotated_logs := 2 }

/-- Answers of a system on which every step of `open_device` succeeds. -/
def openOk (fd : Int) (name : String) : OpenEnv :=
  { fopen_ok := true, errno := 2, errno_pos := by decide, errstr := "", fd := fd,
    version_ok := true, id_ok := true, name := name,
    bustype := 3, vendor := 1133, product := 49948, version := 273,
    ufds_alloc_ok := true, names_alloc_ok := true, junk := { fd := 0, events := 0, revents := 0 } }

/-- Answers of a system on which the text log can be opened. -/
def closeOk : CloseEnv := { fopen_ok := true, errno := 2, errno_pos := by decide }

/-- Answers of a system on which the text log cannot be opened (`EACCES`). -/
def closeDenied : CloseEnv := { fopen_ok := false, errno := 13, errno_pos := by decide }

/-- The empty file system. -/
def noFiles : FS := fun _ => none

/-- A registry with two devices. -/
def twoDevices : World :=
  run_ops cfg1 (World.init 3 noFiles)
    [Op.add "/dev/input/event0" (openOk 4 "kbd"), Op.add "/dev/input/event1" (openOk 5 "mouse")]

/-- Two devices are added, the first is removed and added again. -/
def reAddOps : List Op :=
  [Op.add "/dev/input/event0" (openOk 4 "kbd"), Op.add "/dev/input/event1" (openOk 5 "mouse"),
   Op.remove "/dev/input/event0" closeOk, Op.add "/dev/input/event0" (openOk 6 "kbd")]

/-- Log files with a gap: the bare file and generation 2, no generation 1. -/
def sparseFiles : FS :=
  fun p => if p = "log.txt" then some "new" else if p = "log.txt.2" then some "old" else none

/-- A broken-down time: 5 January 2024, 03:04:05. -/
def tm1 : Tm :=
  { tm_year := 124, tm_mon := 0, tm_mday := 5, tm_hour := 3, tm_min := 4, tm_sec := 5 }

/-- Answers of a system on which every step of `write_event` succeeds. -/
def writeOk : WriteEnv :=
  { write_res := 24, errno := 2, errno_pos := by decide, fopen_ok := true, tm := tm1,
    fputs1_ok := true, fputs2_ok := true, fputs3_ok := true }

/-- A key event with a negative value. -/
def event1 : InputEvent :=
  { tv_sec := 1704423845, tv_usec := 12, type := 1, code := 30, value := -2 }

/-! ## Runs of the event loop -/

/-- In this wake cycle no device read is short and no step of `write_event`
fails, whichever device is read. -/
def Cycle.ok (cyc : Cycle) : Prop :=
  ∀ i, (INPUT_EVENT_SIZE : Int) ≤ (cyc.dev i).read_res ∧ (cyc.dev i).wenv.ok

/-- A wake cycle in which every device is ready and delivers `event1`, and the
watch source is not ready. -/
def cycleDevicesReady : Cycle :=
  { revents := fun i => if i = 0 then 0 else POLLIN
    notify := { res := 0, errno := 0, event_buf := [], open_env := fun _ => openOk 9 "new",
                close_env := fun _ => closeOk }
    dev := fun _ => { read_res := 24, event := event1, wenv := writeOk } }

/-- A wake cycle in which only the watch source is ready and its read fails
with `EIO`. -/
def cycleWatchError : Cycle :=
  { cycleDevicesReady with
    revents := fun i => if i = 0 then POLLIN else 0
    notify := { res := -1, errno := 5, event_buf := [], open_env := fun _ => openOk 9 "new",
                close_env := fun _ => closeOk } }

/-- A wake cycle in which only the watch source is ready and its read is
interrupted (`EINTR`). -/
def cycleWatchInterrupted : Cycle :=
  { cycleWatchError with
    notify := { res := -1, errno := 4, event_buf := [], open_env := fun _ => openOk 9 "new",
                close_env := fun _ => closeOk } }

/-- A configuration without rotation. -/
def cfg0 : Config := { logfile := "log.txt", log_rotate_size := 0, max_rotated_logs := 4 }

/-- The event loop entered with the two sample devices registered. -/
def loopTwoDevices (event_count : Int) : Loop :=
  { w := twoDevices, event_count := event_count, log_fd_open := true }

/-- Size in bytes of `event_buf` in `read_notify`. -/
def EVENT_BUF_SIZE : Nat := 512

/-- One notification record: the fields `wd`, `mask` and `cookie` of the
header, and the `len` bytes that follow the header (the file name, its
terminating NUL and the padding NULs; no byte at all for a record without
name).  The field `len` of the header is the length of `name`. -/
structure NotifyRecord where
  wd : Nat
  mask : Nat
  cookie : Nat
  name : List Nat
deriving DecidableEq, Repr

/-- The four bytes of a `uint32_t`, least significant first. -/
def u32_bytes (n : Nat) : List Nat :=
  [n % 256, n / 256 % 256, n / 65536 % 256, n / 16777216 % 256]

/-- The bytes of a record: the fixed header, then the name bytes. -/
def NotifyRecord.encode (r : NotifyRecord) : List Nat :=
  u32_bytes r.wd ++ (u32_bytes r.mask ++ (u32_bytes r.cookie ++ (u32_bytes r.name.length ++ r.name)))

/-- A record as the watch source writes it: the mask is a `uint32_t`, and a
name field that is present holds a NUL-terminated string. -/
@[reducible] def NotifyRecord.wf (r : NotifyRecord) : Prop :=
  r.mask < 4294967296 ∧ (r.name = [] ∨ 0 ∈ r.name)

/-- The registry call a record asks for: none when the record has no name;
otherwise an add of `<dirname>/<name>` when the mask has the create bit and a
remove of that path when it has not. -/
def NotifyRecord.call (dirname : String) (r : NotifyRecord) : Option RegistryCall :=
  if r.name = [] then none
  else if r.mask &&& IN_CREATE ≠ 0 then some (RegistryCall.add (dirname ++ "/" ++ cstring r.name 0))
  else some (RegistryCall.remove (dirname ++ "/" ++ cstring r.name 0))

/-- The registry call `c` made in state `w`, with the answers of the system
for the record at offset `pos`. -/
def perform_call (cfg : Config) (env : NotifyEnv) (pos : Nat) (w : World) : RegistryCall → World
  | RegistryCall.add device => (open_device cfg device (env.open_env pos) w).2
  | RegistryCall.remove device => (close_device cfg device (env.close_env pos) w).2

/-- The records of a buffer taken one by one in buffer order, the first of them
at offset `pos`: each record with a name makes its one registry call, a record
without name makes none.  The result is the state and the calls made so far
(latest last). -/
def watch_records (cfg : Config) (dirname : String) (env : NotifyEnv) :
    Nat → List NotifyRecord → World → List RegistryCall → World × List RegistryCall
  | _, [], w, calls => (w, calls)
  | pos, r :: rs, w, calls =>
    match r.call dirname with
    | none => watch_records cfg dirname env (pos + r.encode.length) rs w calls
    | some c =>
      watch_records cfg dirname env (pos + r.encode.length) rs (perform_call cfg env pos w c)
        (calls ++ [c])

/-- The bytes of a sequence of records, one after the other. -/
def encode_records (records : List NotifyRecord) : List Nat :=
  records.flatMap NotifyRecord.encode

/-- A create notification for `event5` (name field of 16 bytes). -/
def recordCreate : NotifyRecord :=
  { wd := 1, mask := 256, cookie := 0,
    name := [101, 118, 101, 110, 116, 53, 0, 0, 0, 0, 0, 0, 0, 0, 0, 0] }

/-- A notification without name (`IN_IGNORED`). -/
def recordNoName : NotifyRecord := { wd := 1, mask := 32768, cookie := 0, name := [] }

/-- A delete notification for `event0` (name field of 16 bytes). -/
def recordDelete : NotifyRecord :=
  { wd := 1, mask := 512, cookie := 0,
    name := [101, 118, 101, 110, 116, 48, 0, 0, 0, 0, 0, 0, 0, 0, 0, 0] }

/-- Answers of the system to a read of the watch source that returns the three
sample records, 80 bytes; the 16 bytes of `event_buf` after them hold 255. -/
def notifyThree : NotifyEnv :=
  { res := 80, errno := 0
    event_buf := encode_records [recordCreate, recordNoName, recordDelete] ++ List.replicate 16 255
    open_env := fun _ => openOk 9 "pad"
    close_env := fun _ => closeOk }

/-! ## The scratch buffers and the refused renames

`rotate_logs` and `write_event` above take `sprintf` as the pure formatting
function and `rename` as failing for a missing source only.  The two functions
below are the same source functions with the fixed-size arrays they format
into (`file0[64]`, `file1[64]`, `buf[BUF_SIZE]`) and with renames that the
system refuses for another reason.  A `sprintf` whose text, with its
terminating NUL, does not fit the array writes past its end; C gives such a run
no meaning, and the result is `none`. -/

/-- Size in bytes of `buf` in `write_event` (`BUF_SIZE`). -/
def BUF_SIZE : Nat := 256

/-- Size in bytes of `file0` and `file1` in `rotate_logs`. -/
def NAME_BUF_SIZE : Nat := 64

/-- System call `rename(old, new)` on a system that may refuse it: when
`refused`, the call fails for another reason than a missing source (`errno` is
not `ENOENT`, the failure `rotate_logs` reports with `perror`) and the files
stay as they are; otherwise it is `rename`. -/
def rename_sys (fs : FS) (old new : String) (refused : Bool) : Bool × FS :=
  if refused then (false, fs) else rename fs old new

/-- The `for` loop of `rotate_logs` with `file0` and `file1` as arrays of
`NAME_BUF_SIZE` bytes, entered with loop variable `i`; `refused i` tells whether
the system refuses the rename of iteration `i`. -/
def rotate_logs_buf_loop (logfile : String) (refused : Nat → Bool) (fs : FS) : Nat → Option FS
  | 0 => some fs
  | i + 1 =>
    if ¬ (logfile ++ "." ++ fmt_d 0 ((i + 1 : Nat) : Int)).length < NAME_BUF_SIZE then none
    else if ¬ (if i = 0 then logfile else logfile ++ "." ++ fmt_d 0 (i : Int)).length
        < NAME_BUF_SIZE then none
    else
      rotate_logs_buf_loop logfile refused
        (rename_sys fs (if i = 0 then logfile else logfile ++ "." ++ fmt_d 0 (i : Int))
          (logfile ++ "." ++ fmt_d 0 ((i + 1 : Nat) : Int)) (refused (i + 1))).2 i

/-- Function `rotate_logs` (irecord.c:210) with its name arrays. -/
def rotate_logs_buf (cfg : Config) (refused : Nat → Bool) (fs : FS) : Option FS :=
  rotate_logs_buf_loop cfg.logfile refused fs cfg.max_rotated_logs

/-- Function `write_event` (irecord.c:235) with `buf` as an array of
`BUF_SIZE` bytes and the rotation as `rotate_logs_buf`.  Each of the three
texts is formatted into `buf` before it is written. -/
def write_event_buf (cfg : Config) (event : InputEvent) (device_name : String) (env : WriteEnv)
    (refused : Nat → Bool) (w : World) : Option (Int × World) :=
  if env.write_res < 0 then some (-(env.errno : Int), w) else
  let w0 := { w with mirror := w.mirror ++ [event] }
  if !env.fopen_ok then some (-(env.errno : Int), w0) else
  let fs0 := fopen_append w.fs cfg.logfile
  if ¬ (time_text env.tm event.tv_usec).length < BUF_SIZE then none else
  if !env.fputs1_ok then some (-(env.errno : Int), { w0 with fs := fs0 }) else
  let fs1 := fputs fs0 cfg.logfile (time_text env.tm event.tv_usec)
  let total1 := wrap32 (w.bytes_total + (time_text env.tm event.tv_usec).length)
  if ¬ (name_text device_name).length < BUF_SIZE then none else
  if !env.fputs2_ok then some (-(env.errno : Int), { w0 with fs := fs1, bytes_total := total1 })
  else
  let fs2 := fputs fs1 cfg.logfile (name_text device_name)
  let total2 := wrap32 (total1 + (name_text device_name).length)
  if ¬ (event_text event).length < BUF_SIZE then none else
  if !env.fputs3_ok then some (-(env.errno : Int), { w0 with fs := fs2, bytes_total := total2 })
  else
  let fs3 := fputs fs2 cfg.logfile (event_text event)
  let total3 := wrap32 (total2 + (event_text event).length)
  if cfg.log_rotate_size > 0 ∧ total3.tdiv 1024 ≥ cfg.log_rotate_size then
    (rotate_logs_buf cfg refused fs3).map
      (fun fs4 => (0, { w0 with fs := fs4, bytes_total := 0, rotations := w.rotations + 1 }))
  else
    some (0, { w0 with fs := fs3, bytes_total := total3 })

/-- A system that refuses no rename. -/
def noRefusal : Nat → Bool := fun _ => false

/-- A system that refuses the rename of the bare log file into generation 1. -/
def refuseFirst : Nat → Bool := fun i => decide (i = 1)

/-- A device name of 254 bytes. -/
def longName : String := String.mk (List.replicate 254 'a')

/-- A log file name of 62 bytes. -/
def longLogName : String := String.mk (List.replicate 62 'l')

/-! ## Memory blocks: lemmas -/

theorem realloc_length {α : Type} (arr : List α) (n : Nat) (junk : α) :
    (realloc arr n junk).length = n := by
  simp [realloc]; omega

theorem realloc_getElem?_of_lt {α : Type} (arr : List α) (n k : Nat) (junk : α)
    (hk : k < n) (hl : k < arr.length) : (realloc arr n junk)[k]? = arr[k]? := by
  simp [realloc, List.getElem?_append, List.getElem?_take, hk, hl]

theorem memmove_length {α : Type} (arr : List α) (i c : Nat) (h : i + 1 + c ≤ arr.length) :
    (memmove arr i (i + 1) c).length = arr.length := by
  simp [memmove]; omega

theorem memmove_getElem? {α : Type} (arr : List α) (i c k : Nat) (h : i + 1 + c ≤ arr.length) :
    (memmove arr i (i + 1) c)[k]? =
      if k < i then arr[k]? else if k < i + c then arr[k + 1]? else arr[k]? := by
  unfold memmove
  have h1 : (List.take i arr).length = i := by simp; omega
  have h2 : (List.take c (List.drop (i + 1) arr)).length = c := by simp; omega
  by_cases hk : k < i
  · rw [List.getElem?_append, h1, if_pos hk, if_pos hk, List.getElem?_take, if_pos hk]
  · rw [List.getElem?_append, h1, if_neg hk, if_neg hk, List.getElem?_append, h2]
    by_cases hk2 : k < i + c
    · have h3 : k - i < c := by omega
      rw [if_pos h3, if_pos hk2, List.getElem?_take, if_pos h3, List.getElem?_drop]
      congr 1; omega
    · have h3 : ¬ (k - i < c) := by omega
      rw [if_neg h3, if_neg hk2, List.getElem?_drop]
      congr 1; omega

theorem close_device_loop_not_found (cfg : Config) (device : String) (env : CloseEnv) (w : World) :
    ∀ (n i : Nat), (∀ j, i ≤ j → j < i + n → w.device_names[j]? ≠ some (some device)) →
      close_device_loop cfg device env w n i = (-1, w) := by
  intro n
  induction n with
  | zero => intro i _; rfl
  | succ n ih =>
    intro i h
    have h0 := h i (le_refl i) (by omega)
    rw [close_device_loop, if_neg h0]
    exact ih (i + 1) (fun j hj1 hj2 => h j (by omega) (by omega))

theorem close_device_loop_found (cfg : Config) (device : String) (env : CloseEnv) (w : World) :
    ∀ (n i k : Nat), i ≤ k → k < i + n → w.device_names[k]? = some (some device) →
      (∀ j, i ≤ j → j < k → w.device_names[j]? ≠ some (some device)) →
      close_device_loop cfg device env w n i =
        if !env.fopen_ok then (-(env.errno : Int), w) else
        (0, { w with
                fs := fputs (fopen_append w.fs cfg.logfile) cfg.logfile
                        ("remove device: " ++ device ++ "\n")
                device_names := memmove w.device_names k (k + 1) (w.nfds - k - 1)
                ufds := memmove w.ufds k (k + 1) (w.nfds - k - 1)
                nfds := w.nfds - 1 }) := by
  intro n
  induction n with
  | zero => intro i k h1 h2; omega
  | succ n ih =>
    intro i k h1 h2 hk hfirst
    by_cases hik : i = k
    · subst hik
      rw [close_device_loop, if_pos hk]
    · have h0 := hfirst i (le_refl i) (by omega)
      rw [close_device_loop, if_neg h0]
      exact ih (i + 1) k (by omega) (by omega) hk (fun j hj1 hj2 => hfirst j (by omega) hj2)

/-! ## Registry operations: lemmas -/

theorem open_device_cases (cfg : Config) (device : String) (env : OpenEnv) (w : World) :
    ((open_device cfg device env w).1 = 0 ∧
      (open_device cfg device env w).2.nfds = w.nfds + 1 ∧
      (open_device cfg device env w).2.device_names =
        (realloc w.device_names (w.nfds + 1) none).set w.nfds (some device) ∧
      (open_device cfg device env w).2.ufds =
        (realloc w.ufds (w.nfds + 1) env.junk).set w.nfds
          { fd := env.fd, events := POLLIN,
            revents := ((realloc w.ufds (w.nfds + 1) env.junk).getD w.nfds env.junk).revents }) ∨
    ((open_device cfg device env w).1 < 0 ∧
      (open_device cfg device env w).2.nfds = w.nfds ∧
      (open_device cfg device env w).2.device_names = w.device_names ∧
      ((open_device cfg device env w).2.ufds = w.ufds ∨
       (open_device cfg device env w).2.ufds = realloc w.ufds (w.nfds + 1) env.junk)) := by
  have hpos : -(env.errno : Int) < 0 := by
    have := env.errno_pos
    omega
  unfold open_device
  by_cases h1 : env.fopen_ok = true
  · by_cases h2 : env.fd < 0
    · simp [h1, h2]
    · by_cases h3 : env.version_ok = true
      · by_cases h4 : env.id_ok = true
        · by_cases h5 : env.ufds_alloc_ok = true
          · by_cases h6 : env.names_alloc_ok = true
            · simp [h1, h2, h3, h4, h5, h6]
            · simp [h1, h2, h3, h4, h5, h6]
          · simp [h1, h2, h3, h4, h5]
        · simp [h1, h2, h3, h4]
      · simp [h1, h2, h3]
  · simp [h1, hpos]

theorem aligned_names_length {w : World} {l : List (String × Int)} (h : Aligned w l)
    (hne : 1 < w.nfds) : w.nfds ≤ w.device_names.length := by
  obtain ⟨h1, _, h3⟩ := h
  have hlast : l.length - 1 < l.length := by omega
  have hget : l[l.length - 1]? = some l[l.length - 1] := List.getElem?_eq_getElem hlast
  have hs := (h3 _ _ hget).1
  have hlt : l.length - 1 + 1 < w.device_names.length := by
    by_contra hcon
    rw [List.getElem?_eq_none (by omega)] at hs
    exact Option.noConfusion hs
  omega

theorem open_device_aligned (cfg : Config) (device : String) (env : OpenEnv) (w : World)
    (l : List (String × Int)) (h : Aligned w l) :
    Aligned (open_device cfg device env w).2
      (if (open_device cfg device env w).1 = 0 then l ++ [(device, env.fd)] else l) := by
  obtain ⟨h1, h2, h3⟩ := h
  rcases open_device_cases cfg device env w with ⟨r0, rn, rd, ru⟩ | ⟨r0, rn, rd, ru⟩
  · rw [if_pos r0]
    refine ⟨by rw [rn, h1]; simp, ?_, ?_⟩
    · rw [rn, ru, List.length_set, realloc_length]
    · intro j e hj
      rw [rd, ru]
      by_cases hjl : j < l.length
      · rw [List.getElem?_append_left hjl] at hj
        obtain ⟨a1, a2⟩ := h3 j e hj
        have hlen1 : j + 1 < w.device_names.length := by
          by_contra hcon
          rw [List.getElem?_eq_none (by omega)] at a1
          exact Option.noConfusion a1
        rw [List.getElem?_set, if_neg (by omega), List.getElem?_set, if_neg (by omega),
          realloc_getElem?_of_lt _ _ _ _ (by omega) hlen1,
          realloc_getElem?_of_lt _ _ _ _ (by omega) (by omega)]
        exact ⟨a1, a2⟩
      · have hjeq : j = l.length := by
          by_contra hcon
          have : l.length + 1 ≤ j := by omega
          rw [List.getElem?_eq_none (by simp; omega)] at hj
          exact Option.noConfusion hj
        subst hjeq
        rw [List.getElem?_append_right (le_refl _)] at hj
        simp at hj
        subst hj
        have e1 : l.length + 1 = w.nfds := h1.symm
        rw [e1, List.getElem?_set, if_pos rfl, List.getElem?_set, if_pos rfl, realloc_length,
          realloc_length, if_pos (by omega), if_pos (by omega)]
        exact ⟨rfl, rfl⟩
  · rw [if_neg (by omega)]
    refine ⟨by rw [rn, h1], ?_, ?_⟩
    · rcases ru with ru | ru
      · rw [rn, ru]; exact h2
      · rw [rn, ru, realloc_length]; omega
    · intro j e hj
      obtain ⟨a1, a2⟩ := h3 j e hj
      have hjl : j < l.length := by
        by_contra hcon
        rw [List.getElem?_eq_none (by omega)] at hj
        exact Option.noConfusion hj
      rw [rd]
      refine ⟨a1, ?_⟩
      rcases ru with ru | ru
      · rw [ru]; exact a2
      · rw [ru, realloc_getElem?_of_lt _ _ _ _ (by omega) (by omega)]
        exact a2

theorem close_device_cases (cfg : Config) (device : String) (env : CloseEnv) (w : World) :
    ((close_device cfg device env w).1 < 0 ∧ (close_device cfg device env w).2 = w) ∨
    (∃ i, 1 ≤ i ∧ i < w.nfds ∧ w.device_names[i]? = some (some device) ∧
      (∀ j, 1 ≤ j → j < i → w.device_names[j]? ≠ some (some device)) ∧
      close_device cfg device env w =
        (0, { w with
                fs := fputs (fopen_append w.fs cfg.logfile) cfg.logfile
                        ("remove device: " ++ device ++ "\n")
                device_names := memmove w.device_names i (i + 1) (w.nfds - i - 1)
                ufds := memmove w.ufds i (i + 1) (w.nfds - i - 1)
                nfds := w.nfds - 1 })) := by
  classical
  by_cases hex : ∃ k, (1 ≤ k ∧ k < w.nfds) ∧ w.device_names[k]? = some (some device)
  · have hi := Nat.find_spec hex
    have hmin : ∀ j, 1 ≤ j → j < Nat.find hex → w.device_names[j]? ≠ some (some device) :=
      fun j hj1 hj2 hj3 => Nat.find_min hex hj2 ⟨⟨hj1, by omega⟩, hj3⟩
    generalize Nat.find hex = i at hi hmin
    have hrun := close_device_loop_found cfg device env w (w.nfds - 1) 1 i hi.1.1 (by omega)
      hi.2 hmin
    by_cases hlog : env.fopen_ok = true
    · right
      refine ⟨i, hi.1.1, hi.1.2, hi.2, hmin, ?_⟩
      unfold close_device
      rw [hrun, hlog]
      rfl
    · left
      have hpos := env.errno_pos
      unfold close_device
      rw [hrun]
      simp [hlog]
      omega
  · left
    have hnone : ∀ i, 1 ≤ i → i < w.nfds → w.device_names[i]? ≠ some (some device) :=
      fun i h1 h2 h3 => hex ⟨i, ⟨h1, h2⟩, h3⟩
    have := close_device_loop_not_found cfg device env w (w.nfds - 1) 1
      (fun j hj1 hj2 => hnone j hj1 (by omega))
    unfold close_device
    rw [this]
    refine ⟨?_, rfl⟩
    show (-1 : Int) < 0
    decide

theorem close_device_aligned (cfg : Config) (device : String) (env : CloseEnv) (w : World)
    (l : List (String × Int)) (h : Aligned w l) :
    ((close_device cfg device env w).1 < 0 ∧ (close_device cfg device env w).2 = w) ∨
    ((close_device cfg device env w).1 = 0 ∧
      ∃ k e, l[k]? = some e ∧ e.1 = device ∧ (∀ j e2, j < k → l[j]? = some e2 → e2.1 ≠ device) ∧
        Aligned (close_device cfg device env w).2 (l.eraseIdx k)) := by
  rcases close_device_cases cfg device env w with hfail | ⟨i, hi1, hi2, hi3, hmin, hc⟩
  · exact Or.inl hfail
  · right
    have hnames := aligned_names_length h (by omega)
    obtain ⟨h1, h2, h3⟩ := h
    have hk : i - 1 < l.length := by omega
    have hget : l[i - 1]? = some l[i - 1] := List.getElem?_eq_getElem hk
    have hpath : (l[i - 1]).1 = device := by
      have := (h3 _ _ hget).1
      have e1 : i - 1 + 1 = i := by omega
      rw [e1, hi3] at this
      simp at this
      exact this.symm
    rw [hc]
    refine ⟨rfl, i - 1, l[i - 1], hget, hpath, ?_, ?_, ?_, ?_⟩
    · intro j e2 hj hj2 hcon
      have := (h3 j e2 hj2).1
      rw [hcon] at this
      exact hmin (j + 1) (by omega) (by omega) this
    · show w.nfds - 1 = (l.eraseIdx (i - 1)).length + 1
      rw [List.length_eraseIdx, if_pos hk]
      omega
    · show w.nfds - 1 ≤ (memmove w.ufds i (i + 1) (w.nfds - i - 1)).length
      rw [memmove_length _ _ _ (by omega)]
      omega
    · intro j e hj
      rw [List.getElem?_eraseIdx] at hj
      show (memmove w.device_names i (i + 1) (w.nfds - i - 1))[j + 1]? = _ ∧
        ((memmove w.ufds i (i + 1) (w.nfds - i - 1))[j + 1]?).map _ = _
      rw [memmove_getElem? _ _ _ _ (by omega), memmove_getElem? _ _ _ _ (by omega)]
      by_cases hji : j < i - 1
      · rw [if_pos hji] at hj
        have ha : j + 1 < i := by omega
        simp only [if_pos ha]
        exact h3 j e hj
      · rw [if_neg hji] at hj
        have hjl : j + 1 < l.length := by
          by_contra hcon
          rw [List.getElem?_eq_none (by omega)] at hj
          exact Option.noConfusion hj
        have ha : ¬ j + 1 < i := by omega
        have hb : j + 1 < i + (w.nfds - i - 1) := by omega
        simp only [if_neg ha, if_pos hb]
        exact h3 (j + 1) e hj

theorem init_aligned (inotify_fd : Int) (fs : FS) : Aligned (World.init inotify_fd fs) [] := by
  refine ⟨rfl, ?_, ?_⟩
  · show 1 ≤ 1
    exact le_refl 1
  · intro j e hj
    simp at hj

theorem run_ops_aligned (cfg : Config) (ops : List Op) :
    ∀ (w : World) (l hist : List (String × Int)), Aligned w l → l.Sublist hist →
      ∃ l2, Aligned (run_ops cfg w ops) l2 ∧ l2.Sublist (hist ++ added cfg w ops) ∧
        (l2.length : Int) = l.length + registered_count cfg w ops := by
  induction ops with
  | nil =>
    intro w l hist h hs
    exact ⟨l, h, by simpa [added] using hs, by simp [registered_count]⟩
  | cons op ops ih =>
    intro w l hist h hs
    cases op with
    | add device env =>
      have hstep := open_device_aligned cfg device env w l h
      by_cases hrc : (open_device cfg device env w).1 = 0
      · rw [if_pos hrc] at hstep
        obtain ⟨l2, a1, a2, a3⟩ := ih _ _ (hist ++ [(device, env.fd)]) hstep
          (List.Sublist.append hs (List.Sublist.refl _))
        refine ⟨l2, a1, ?_, ?_⟩
        · simpa [added, hrc] using a2
        · rw [a3]
          simp [registered_count, apply_op, hrc]
          omega
      · rw [if_neg hrc] at hstep
        obtain ⟨l2, a1, a2, a3⟩ := ih _ _ hist hstep hs
        refine ⟨l2, a1, ?_, ?_⟩
        · simpa [added, hrc] using a2
        · rw [a3]
          simp [registered_count, apply_op, hrc]
    | remove device env =>
      rcases close_device_aligned cfg device env w l h with ⟨hrc, hw⟩ | ⟨hrc, k, e, hk, _, _, hal⟩
      · have hstep : Aligned (close_device cfg device env w).2 l := by rw [hw]; exact h
        obtain ⟨l2, a1, a2, a3⟩ := ih _ _ hist hstep hs
        refine ⟨l2, a1, ?_, ?_⟩
        · simpa [added] using a2
        · rw [a3]
          have hne : ¬ (close_device cfg device env w).1 = 0 := by omega
          simp [registered_count, apply_op, hne]
      · have hkl : k < l.length := by
          by_contra hcon
          rw [List.getElem?_eq_none (by omega)] at hk
          exact Option.noConfusion hk
        obtain ⟨l2, a1, a2, a3⟩ := ih _ _ hist hal
          ((List.eraseIdx_sublist l k).trans hs)
        refine ⟨l2, a1, ?_, ?_⟩
        · simpa [added] using a2
        · rw [a3, List.length_eraseIdx, if_pos hkl]
          simp [registered_count, apply_op, hrc]
          omega

theorem aligned_device_entries {w : World} {l : List (String × Int)} (h : Aligned w l) :
    (w.device_names.take w.nfds).drop 1 = l.map (fun e => some e.1) := by
  obtain ⟨h1, _, h3⟩ := h
  apply List.ext_getElem?
  intro j
  rw [List.getElem?_drop, List.getElem?_take, List.getElem?_map]
  by_cases hj : j < l.length
  · have hget : l[j]? = some l[j] := List.getElem?_eq_getElem hj
    have e1 : 1 + j = j + 1 := by omega
    rw [if_pos (by omega), hget, e1, (h3 j _ hget).1]
    rfl
  · rw [if_neg (by omega), List.getElem?_eq_none (by omega)]
    rfl

theorem holds_iff_of_aligned {w : World} {l : List (String × Int)} (h : Aligned w l)
    (device : String) : holds w device = true ↔ device ∈ l.map Prod.fst := by
  unfold holds
  rw [aligned_device_entries h]
  simp

theorem run_ops_nodup (cfg : Config) (ops : List Op) :
    ∀ (w : World) (l : List (String × Int)), Aligned w l → (l.map Prod.fst).Nodup →
      adds_fresh cfg w ops = true →
      ∃ l2, Aligned (run_ops cfg w ops) l2 ∧ (l2.map Prod.fst).Nodup := by
  induction ops with
  | nil =>
    intro w l h hn _
    exact ⟨l, h, hn⟩
  | cons op ops ih =>
    intro w l h hn hf
    cases op with
    | add device env =>
      simp only [adds_fresh, Bool.and_eq_true, Bool.not_eq_true'] at hf
      have hnot : device ∉ l.map Prod.fst := by
        intro hmem
        have := (holds_iff_of_aligned h device).2 hmem
        rw [hf.1] at this
        exact Bool.noConfusion this
      have hstep := open_device_aligned cfg device env w l h
      by_cases hrc : (open_device cfg device env w).1 = 0
      · rw [if_pos hrc] at hstep
        refine ih _ _ hstep ?_ hf.2
        rw [List.map_append, List.nodup_append]
        refine ⟨hn, by simp, ?_⟩
        intro a ha hb
        simp at hb
        subst hb
        exact hnot ha
      · rw [if_neg hrc] at hstep
        exact ih _ _ hstep hn hf.2
    | remove device env =>
      simp only [adds_fresh] at hf
      rcases close_device_aligned cfg device env w l h with ⟨_, hw⟩ | ⟨_, k, e, _, _, _, hal⟩
      · rw [hw] at hf
        have := ih w l h hn hf
        simpa [run_ops, apply_op, hw] using this
      · refine ih _ _ hal ?_ hf
        exact hn.sublist ((List.eraseIdx_sublist l k).map Prod.fst)

/-! ## Formatting: lemmas -/

theorem digitVal_digitChar (d : Nat) (h : d < 16) : digitVal (digitChar d) = d := by
  interval_cases d <;> decide

theorem digitsLE_eq_fixedLE (b : Nat) (hb : 2 ≤ b) :
    ∀ (w fuel n : Nat), n ≤ fuel → n < b ^ w →
      digitsLE b fuel n ++ List.replicate (w - (digitsLE b fuel n).length) 0 = fixedLE b w n := by
  intro w
  induction w with
  | zero =>
    intro fuel n _ hn
    have h0 : n = 0 := by simpa using hn
    subst h0
    cases fuel <;> simp [digitsLE, fixedLE]
  | succ w ih =>
    intro fuel n hf hn
    by_cases h0 : n = 0
    · subst h0
      have hz := ih 0 0 (le_refl 0) (by positivity)
      simp only [digitsLE, List.nil_append, List.length_nil, Nat.sub_zero] at hz
      cases fuel <;> simp [digitsLE, fixedLE, List.replicate_succ, hz]
    · obtain ⟨f, rfl⟩ : ∃ f, fuel = f + 1 := ⟨fuel - 1, by omega⟩
      have hdiv : n / b < n := Nat.div_lt_self (by omega) (by omega)
      have hlt : n / b < b ^ w := by
        rw [Nat.div_lt_iff_lt_mul (by omega)]
        rw [pow_succ] at hn
        exact hn
      have hrec := ih f (n / b) (by omega) hlt
      simp only [digitsLE, if_neg h0, fixedLE, List.length_cons, List.cons_append,
        Nat.add_sub_add_right]
      rw [hrec]

theorem fixedLE_length (b : Nat) : ∀ (w n : Nat), (fixedLE b w n).length = w := by
  intro w
  induction w with
  | zero => intro n; rfl
  | succ w ih => intro n; simp [fixedLE, ih]

theorem fmtUnsigned_eq_fixed (b : Nat) (hb : 2 ≤ b) (w n : Nat) (hw : 1 ≤ w) (hn : n < b ^ w) :
    fmtUnsigned b w n = (fixedLE b w n).reverse.map digitChar := by
  have hz : digitChar 0 = '0' := by decide
  have key := digitsLE_eq_fixedLE b hb w n n (le_refl n) hn
  unfold fmtUnsigned
  by_cases h0 : n = 0
  · subst h0
    have hd : digitsLE b 0 0 = [] := rfl
    rw [hd] at key
    simp only [List.nil_append, List.length_nil, Nat.sub_zero] at key
    rw [← key]
    obtain ⟨v, rfl⟩ : ∃ v, w = v + 1 := ⟨w - 1, by omega⟩
    simp only [if_pos, List.length_singleton, Nat.add_sub_cancel, List.map_cons, List.map_nil,
      hz, List.reverse_replicate, List.map_replicate]
    rw [← List.replicate_succ']
  · simp only [if_neg h0]
    rw [← key]
    simp [hz]

theorem fmt_x_eq_fixed (w : Nat) (n : Int) (hw : 1 ≤ w) (hn : (n % 4294967296).toNat < 16 ^ w) :
    fmt_x w n = fixedDigits 16 w (n % 4294967296).toNat := by
  unfold fmt_x fixedDigits
  rw [fmtUnsigned_eq_fixed 16 (by omega) w _ hw hn]

theorem fmt_d_eq_fixed (w : Nat) (n : Int) (hw : 1 ≤ w) (h0 : 0 ≤ n) (hn : n.toNat < 10 ^ w) :
    fmt_d w n = fixedDigits 10 w n.toNat := by
  have hnat : n.natAbs = n.toNat := by omega
  unfold fmt_d fixedDigits
  rw [if_neg (by omega), hnat, fmtUnsigned_eq_fixed 10 (by omega) w _ hw hn]

theorem fixedDigits_length (b w n : Nat) : (fixedDigits b w n).length = w := by
  simp [fixedDigits, String.length, fixedLE_length]

theorem parseDigits_foldl (b : Nat) (l : List Char) (acc : Nat) :
    l.foldl (fun a c => a * b + digitVal c) acc = acc * b ^ l.length + parseDigits b l := by
  unfold parseDigits
  induction l generalizing acc with
  | nil => simp
  | cons c l ih =>
    simp only [List.foldl_cons, List.length_cons]
    rw [ih (acc * b + digitVal c), ih (0 * b + digitVal c)]
    ring

theorem parseDigits_append (b : Nat) (l1 l2 : List Char) :
    parseDigits b (l1 ++ l2) = parseDigits b l1 * b ^ l2.length + parseDigits b l2 := by
  conv_lhs => unfold parseDigits
  rw [List.foldl_append]
  rw [parseDigits_foldl]
  rfl

theorem parseDigits_fixed (b : Nat) (hb : b ≤ 16) (hb0 : 0 < b) :
    ∀ (w n : Nat), parseDigits b ((fixedLE b w n).reverse.map digitChar) = n % b ^ w := by
  intro w
  induction w with
  | zero => intro n; simp [fixedLE, parseDigits, Nat.mod_one]
  | succ w ih =>
    intro n
    simp only [fixedLE, List.reverse_cons, List.map_append, List.map_cons, List.map_nil]
    rw [parseDigits_append, ih]
    have hd : parseDigits b [digitChar (n % b)] = n % b := by
      simp only [parseDigits, List.foldl_cons, List.foldl_nil, Nat.zero_mul, Nat.zero_add]
      exact digitVal_digitChar _ (lt_of_lt_of_le (Nat.mod_lt _ hb0) hb)
    rw [hd]
    simp only [List.length_cons, List.length_nil, Nat.zero_add, pow_one]
    rw [pow_succ, Nat.mul_comm (b ^ w) b, Nat.mod_mul]
    ring

theorem parseDigits_zeros (b k : Nat) (l : List Char) :
    parseDigits b (List.replicate k '0' ++ l) = parseDigits b l := by
  have hz : ∀ k, parseDigits b (List.replicate k '0') = 0 := by
    intro k
    induction k with
    | zero => rfl
    | succ k ih =>
      rw [List.replicate_succ', parseDigits_append, ih]
      simp [parseDigits, digitVal]
  rw [parseDigits_append, hz]
  simp

theorem parseDigits_digitsLE (b : Nat) (hb : 2 ≤ b) (hb2 : b ≤ 16) (n : Nat) :
    parseDigits b ((digitsLE b n n).reverse.map digitChar) = n := by
  have hz : digitChar 0 = '0' := by decide
  have hlt : n < b ^ n := lt_of_lt_of_le (Nat.lt_two_pow n) (Nat.pow_le_pow_left hb n)
  have key := digitsLE_eq_fixedLE b hb n n n (le_refl n) hlt
  have hp := parseDigits_fixed b hb2 (by omega) n n
  rw [← key] at hp
  simp only [List.reverse_append, List.reverse_replicate, List.map_append, List.map_replicate,
    hz] at hp
  rw [parseDigits_zeros, Nat.mod_eq_of_lt hlt] at hp
  exact hp

theorem parseDigits_fmtUnsigned (b : Nat) (hb : 2 ≤ b) (hb2 : b ≤ 16) (w n : Nat) :
    parseDigits b (fmtUnsigned b w n) = n := by
  unfold fmtUnsigned
  by_cases h0 : n = 0
  · subst h0
    simp only [if_pos, parseDigits_zeros]
    simp [parseDigits, digitVal, digitChar]
  · simp only [if_neg h0, parseDigits_zeros]
    exact parseDigits_digitsLE b hb hb2 n

theorem generation_injective (logfile : String) (i j : Nat)
    (h : generation logfile i = generation logfile j) : i = j := by
  have hlen : ∀ k, k ≠ 0 → (generation logfile k).length ≠ logfile.length := by
    intro k hk
    simp only [generation, if_neg hk, String.length_append]
    have : ".".length = 1 := rfl
    omega
  have hzero : generation logfile 0 = logfile := by simp [generation]
  by_cases hi : i = 0
  · by_cases hj : j = 0
    · omega
    · exfalso
      apply hlen j hj
      rw [← h, hi, hzero]
  · by_cases hj : j = 0
    · exfalso
      apply hlen i hi
      rw [h, hj, hzero]
    · simp only [generation, if_neg hi, if_neg hj] at h
      have hd := congrArg String.data h
      simp only [String.data_append, List.append_cancel_left_eq] at hd
      have hi2 : ¬ ((i : Int) < 0) := by omega
      have hj2 : ¬ ((j : Int) < 0) := by omega
      simp only [fmt_d, if_neg hi2, if_neg hj2, Int.natAbs_ofNat] at hd
      have := congrArg (parseDigits 10) hd
      rw [parseDigits_fmtUnsigned 10 (by omega) (by omega),
        parseDigits_fmtUnsigned 10 (by omega) (by omega)] at this
      exact this

theorem digitsLE_length_gt (b : Nat) (hb : 2 ≤ b) :
    ∀ (k fuel n : Nat), n ≤ fuel → b ^ k ≤ n → k < (digitsLE b fuel n).length := by
  intro k
  induction k with
  | zero =>
    intro fuel n hf hn
    have h0 : n ≠ 0 := by
      simp at hn
      omega
    obtain ⟨f, rfl⟩ : ∃ f, fuel = f + 1 := ⟨fuel - 1, by omega⟩
    simp [digitsLE, h0]
  | succ k ih =>
    intro fuel n hf hn
    have hpos : 0 < b ^ (k + 1) := by positivity
    have h0 : n ≠ 0 := by omega
    obtain ⟨f, rfl⟩ : ∃ f, fuel = f + 1 := ⟨fuel - 1, by omega⟩
    have hdiv : n / b < n := Nat.div_lt_self (by omega) (by omega)
    have hle : b ^ k ≤ n / b := by
      rw [Nat.le_div_iff_mul_le (by omega)]
      rw [pow_succ] at hn
      exact hn
    have := ih f (n / b) (by omega) hle
    simp only [digitsLE, if_neg h0, List.length_cons]
    omega

theorem fmt_d_year (n : Int) (h0 : 1000 ≤ n) (h1 : n ≤ 9999) :
    fmt_d 0 n = fixedDigits 10 4 n.toNat := by
  have hnat : n.natAbs = n.toNat := by omega
  have hlt : n.toNat < 10 ^ 4 := by omega
  have hge : 10 ^ 3 ≤ n.toNat := by omega
  have hne : n.toNat ≠ 0 := by omega
  have hlow := digitsLE_length_gt 10 (by omega) 3 n.toNat n.toNat (le_refl _) hge
  have hneg : ¬ n < 0 := by omega
  have e1 : 4 - (digitsLE 10 n.toNat n.toNat).length = 0 := by omega
  have e2 : 0 - (digitsLE 10 n.toNat n.toNat).length = 0 := by omega
  rw [← fmt_d_eq_fixed 4 n (by omega) (by omega) hlt]
  simp only [fmt_d, if_neg hneg, hnat, fmtUnsigned, if_neg hne, List.length_reverse, e1, e2]

theorem time_text_eq_spec (tm : Tm) (tv_usec : Int) (htm : tm.valid)
    (h0 : 0 ≤ tv_usec) (h1 : tv_usec ≤ 999999) :
    time_text tm tv_usec =
      spec_time (tm.tm_year + 1900).toNat (tm.tm_mon + 1).toNat tm.tm_mday.toNat
        tm.tm_hour.toNat tm.tm_min.toNat tm.tm_sec.toNat tv_usec.toNat := by
  obtain ⟨y0, y1, m0, m1, d0, d1, hh0, hh1, mi0, mi1, s0, s1⟩ := htm
  unfold time_text spec_time
  rw [fmt_d_year _ y0 y1, fmt_d_eq_fixed 2 (tm.tm_mon + 1) (by omega) (by omega) (by omega),
    fmt_d_eq_fixed 2 tm.tm_mday (by omega) (by omega) (by omega),
    fmt_d_eq_fixed 2 tm.tm_hour (by omega) (by omega) (by omega),
    fmt_d_eq_fixed 2 tm.tm_min (by omega) (by omega) (by omega),
    fmt_d_eq_fixed 2 tm.tm_sec (by omega) (by omega) (by omega),
    fmt_d_eq_fixed 6 tv_usec (by omega) (by omega) (by omega)]

theorem event_text_eq_spec (event : InputEvent) (ht : event.type < 65536)
    (hc : event.code < 65536) :
    event_text event = spec_triple event.type event.code (event.value % 4294967296).toNat := by
  have e1 : ((event.type : Int) % 4294967296).toNat = event.type := by omega
  have e2 : ((event.code : Int) % 4294967296).toNat = event.code := by omega
  unfold event_text spec_triple
  rw [fmt_x_eq_fixed 4 event.type (by omega) (by omega),
    fmt_x_eq_fixed 4 event.code (by omega) (by omega),
    fmt_x_eq_fixed 8 event.value (by omega) (by omega), e1, e2]

theorem spec_time_length (year mon mday hour min sec usec : Nat) :
    (spec_time year mon mday hour min sec usec).length = 27 := by
  simp only [spec_time, String.length_append, fixedDigits_length]
  rfl

theorem spec_triple_length (type code value : Nat) :
    (spec_triple type code value).length = 19 := by
  simp only [spec_triple, String.length_append, fixedDigits_length]
  rfl

theorem spec_line_length (year mon mday hour min sec usec : Nat) (name : String)
    (type code value : Nat) :
    (spec_line year mon mday hour min sec usec name type code value).length
      = 27 + name.length + 2 + 19 := by
  simp only [spec_line, String.length_append, spec_time_length, spec_triple_length]
  rfl

theorem parse_triple_spec_line (year mon mday hour min sec usec : Nat) (name : String)
    (type code value : Nat) (ht : type < 65536) (hc : code < 65536) (hv : value < 4294967296) :
    parse_triple (spec_line year mon mday hour min sec usec name type code value)
      = (type, code, value) := by
  have hl4t : (List.map digitChar (fixedLE 16 4 type).reverse).length = 4 := by
    simp [fixedLE_length]
  have hl4c : (List.map digitChar (fixedLE 16 4 code).reverse).length = 4 := by
    simp [fixedLE_length]
  have hl8 : (List.map digitChar (fixedLE 16 8 value).reverse).length = 8 := by
    simp [fixedLE_length]
  have hdrop : (spec_line year mon mday hour min sec usec name type code value).data.drop
      ((spec_line year mon mday hour min sec usec name type code value).data.length - 19)
      = (spec_triple type code value).data := by
    have hlen := spec_triple_length type code value
    unfold spec_line
    simp only [String.data_append, List.length_append]
    rw [String.length] at hlen
    rw [hlen, Nat.add_sub_cancel]
    rw [← List.length_append, ← List.length_append]
    exact List.drop_left _ _
  unfold parse_triple
  simp only [hdrop]
  simp only [spec_triple, String.data_append, fixedDigits, List.append_assoc]
  have p1 := parseDigits_fixed 16 (le_refl 16) (by omega) 4 type
  have p2 := parseDigits_fixed 16 (le_refl 16) (by omega) 4 code
  have p3 := parseDigits_fixed 16 (le_refl 16) (by omega) 8 value
  rw [Nat.mod_eq_of_lt (by omega)] at p1 p2 p3
  generalize List.map digitChar (fixedLE 16 4 type).reverse = a at p1 hl4t
  generalize List.map digitChar (fixedLE 16 4 code).reverse = c at p2 hl4c
  generalize List.map digitChar (fixedLE 16 8 value).reverse = v at p3 hl8
  have t1 : List.take 4 (a ++ ([' '] ++ (c ++ ([' '] ++ (v ++ ['\n']))))) = a :=
    List.take_left' hl4t
  have d5 : List.drop 5 (a ++ ([' '] ++ (c ++ ([' '] ++ (v ++ ['\n'])))))
      = c ++ ([' '] ++ (v ++ ['\n'])) := by
    rw [← List.append_assoc]
    exact List.drop_left' (by simp [hl4t])
  have d10 : List.drop 10 (a ++ ([' '] ++ (c ++ ([' '] ++ (v ++ ['\n'])))))
      = v ++ ['\n'] := by
    rw [← List.append_assoc, ← List.append_assoc, ← List.append_assoc]
    exact List.drop_left' (by simp [hl4t, hl4c])
  rw [t1, d5, d10, List.take_left' hl4c, List.take_left' hl8, p1, p2, p3]

/-! ## Rotation: lemmas -/

theorem rename_snd_apply (fs : FS) (old new p : String) :
    (rename fs old new).2 p =
      if (fs old).isSome then (if p = new then fs old else if p = old then none else fs p)
      else fs p := by
  unfold rename
  cases h : fs old <;> simp

theorem rotate_logs_loop_succ (logfile : String) (fs : FS) (i : Nat) :
    rotate_logs_loop logfile fs (i + 1) =
      rotate_logs_loop logfile
        (rename fs (generation logfile i) (generation logfile (i + 1))).2 i := by
  simp [rotate_logs_loop, generation]

theorem rotate_logs_loop_spec (logfile : String) :
    ∀ (n : Nat) (fs : FS),
      (∀ p, (∀ i, i ≤ n → p ≠ generation logfile i) → rotate_logs_loop logfile fs n p = fs p) ∧
      (∀ i, 1 ≤ i → i < n →
        rotate_logs_loop logfile fs n (generation logfile i) = fs (generation logfile (i - 1))) ∧
      (1 ≤ n → rotate_logs_loop logfile fs n (generation logfile n) =
        if (fs (generation logfile (n - 1))).isSome then fs (generation logfile (n - 1))
        else fs (generation logfile n)) ∧
      (1 ≤ n → rotate_logs_loop logfile fs n (generation logfile 0) = none) := by
  intro n
  induction n with
  | zero =>
    intro fs
    refine ⟨fun p _ => rfl, ?_, ?_, ?_⟩
    · intro i h1 h2; omega
    · intro h; omega
    · intro h; omega
  | succ n ih =>
    intro fs
    have hne : ∀ a b, a ≠ b → generation logfile a ≠ generation logfile b :=
      fun a b hab h => hab (generation_injective logfile a b h)
    obtain ⟨ih1, ih2, ih3, ih4⟩ :=
      ih (rename fs (generation logfile n) (generation logfile (n + 1))).2
    rw [rotate_logs_loop_succ]
    refine ⟨?_, ?_, ?_, ?_⟩
    · intro p hp
      rw [ih1 p (fun i hi => hp i (by omega)), rename_snd_apply]
      simp [hp n (by omega), hp (n + 1) (le_refl _)]
    · intro i hi1 hi2
      by_cases hin : i = n
      · subst hin
        rw [ih3 hi1, rename_snd_apply, rename_snd_apply]
        have e1 : generation logfile (i - 1) ≠ generation logfile (i + 1) := hne _ _ (by omega)
        have e2 : generation logfile (i - 1) ≠ generation logfile i := hne _ _ (by omega)
        have e3 : generation logfile i ≠ generation logfile (i + 1) := hne _ _ (by omega)
        cases h : fs (generation logfile i) <;> cases h2 : fs (generation logfile (i - 1)) <;>
          simp [e1, e2, e3, h, h2]
      · rw [ih2 i hi1 (by omega), rename_snd_apply]
        have e1 : generation logfile (i - 1) ≠ generation logfile (n + 1) := hne _ _ (by omega)
        have e2 : generation logfile (i - 1) ≠ generation logfile n := hne _ _ (by omega)
        simp [e1, e2]
    · intro _
      rw [ih1 _ (fun i hi => hne _ _ (by omega)), rename_snd_apply]
      simp only [Nat.add_sub_cancel, if_true]
    · intro _
      by_cases hn : n = 0
      · subst hn
        rw [rotate_logs_loop, rename_snd_apply]
        have e3 : generation logfile 0 ≠ generation logfile (0 + 1) := hne _ _ (by omega)
        cases h : fs (generation logfile 0) <;> simp [h, e3]
      · exact ih4 (by omega)

/-! ## Event logger: lemmas -/

theorem fputs_fopen_append (fs : FS) (path s : String) :
    fputs (fopen_append fs path) path s = fputs fs path s := by
  funext p
  by_cases hp : p = path <;> simp [fputs, fopen_append, hp]

theorem fputs_fputs (fs : FS) (path s t : String) :
    fputs (fputs fs path s) path t = fputs fs path (s ++ t) := by
  funext p
  by_cases hp : p = path <;> simp [fputs, String.append_assoc, hp]

theorem wrap32_of_range (x : Int) (h0 : -2147483648 ≤ x) (h1 : x ≤ 2147483647) :
    wrap32 x = x := by
  unfold wrap32
  omega

theorem event_line_eq_spec (tm : Tm) (event : InputEvent) (device_name : String)
    (htm : tm.valid) (h0 : 0 ≤ event.tv_usec) (h1 : event.tv_usec ≤ 999999)
    (ht : event.type < 65536) (hc : event.code < 65536) :
    event_line tm event device_name = spec_line_of tm event device_name := by
  unfold event_line spec_line_of spec_line name_text
  rw [time_text_eq_spec tm event.tv_usec htm h0 h1, event_text_eq_spec event ht hc,
    ← String.append_assoc]

/-- The fuel `read_notify` gives its loop is enough: when every length field
of the buffer is below 2^31 - 16, as the lengths the kernel writes are, the
loop ends because `res` has dropped below the size of a record header. -/
theorem read_notify_loop_done (cfg : Config) (dirname : String) (env : NotifyEnv)
    (hlen : ∀ pos, le32 env.event_buf (pos + 12) < 2147483632) :
    ∀ (fuel : Nat) (res event_pos : Int) (w : World) (calls : List RegistryCall),
      res ≤ 2147483647 → res ≤ fuel →
      (read_notify_loop cfg dirname env fuel res event_pos w calls).2.2
        < (INOTIFY_EVENT_SIZE : Int) := by
  intro fuel
  induction fuel with
  | zero =>
    intro res event_pos w calls _ hf
    show res < (INOTIFY_EVENT_SIZE : Int)
    simp only [INOTIFY_EVENT_SIZE]
    omega
  | succ fuel ih =>
    intro res event_pos w calls hmax hf
    rw [read_notify_loop]
    by_cases hres : res < (INOTIFY_EVENT_SIZE : Int)
    · rw [if_pos hres]
      exact hres
    · simp only [if_neg hres]
      have hl := hlen event_pos.toNat
      simp only [INOTIFY_EVENT_SIZE] at hres ⊢
      have hsize : wrap32 ((16 : Int) + (le32 env.event_buf (event_pos.toNat + 12) : Int))
          = 16 + (le32 env.event_buf (event_pos.toNat + 12) : Int) :=
        wrap32_of_range _ (by omega) (by omega)
      have hnext : wrap32 (res - (16 + (le32 env.event_buf (event_pos.toNat + 12) : Int)))
          = res - (16 + (le32 env.event_buf (event_pos.toNat + 12) : Int)) :=
        wrap32_of_range _ (by omega) (by omega)
      simp only [Nat.cast_ofNat, hsize, hnext]
      split_ifs
      · exact ih _ _ _ _ (by omega) (by push_cast at hf; omega)
      · exact ih _ _ _ _ (by omega) (by push_cast at hf; omega)
      · exact ih _ _ _ _ (by omega) (by push_cast at hf; omega)

/-! ## Hotplug watcher: lemmas -/

theorem le32_append_left (pre l : List Nat) (k : Nat) :
    le32 (pre ++ l) (pre.length + k) = le32 l k := by
  have h : ∀ j, (pre ++ l).getD (pre.length + k + j) 0 = l.getD (k + j) 0 := by
    intro j
    rw [List.getD_append_right _ _ _ _ (by omega)]
    congr 1
    omega
  have h0 := h 0
  simp only [Nat.add_zero] at h0
  unfold le32
  rw [h0, h 1, h 2, h 3]

theorem u32_value (n : Nat) (h : n < 4294967296) :
    n % 256 + 256 * (n / 256 % 256) + 65536 * (n / 65536 % 256) + 16777216 * (n / 16777216 % 256)
      = n := by
  omega

theorem le32_encode_mask (r : NotifyRecord) (rest : List Nat) (h : r.mask < 4294967296) :
    le32 (r.encode ++ rest) 4 = r.mask := by
  simp only [NotifyRecord.encode, u32_bytes, le32, List.cons_append, List.nil_append,
    List.getD_cons_succ, List.getD_cons_zero]
  exact u32_value r.mask h

theorem le32_encode_len (r : NotifyRecord) (rest : List Nat) (h : r.name.length < 4294967296) :
    le32 (r.encode ++ rest) 12 = r.name.length := by
  simp only [NotifyRecord.encode, u32_bytes, le32, List.cons_append, List.nil_append,
    List.getD_cons_succ, List.getD_cons_zero]
  exact u32_value r.name.length h

theorem encode_length (r : NotifyRecord) : r.encode.length = 16 + r.name.length := by
  simp only [NotifyRecord.encode, u32_bytes, List.length_append, List.length_cons,
    List.length_nil]
  omega

theorem takeWhile_nul_append (l rest : List Nat) (h : 0 ∈ l) :
    (l ++ rest).takeWhile (fun b => b != 0) = l.takeWhile (fun b => b != 0) := by
  induction l with
  | nil => simp at h
  | cons a l ih =>
    by_cases ha : a = 0
    · subst ha
      simp [List.takeWhile]
    · have hmem : 0 ∈ l := by
        rcases List.mem_cons.1 h with h0 | h0
        · exact absurd h0.symm ha
        · exact h0
      have hne : (a != 0) = true := by simp [ha]
      simp only [List.cons_append, List.takeWhile_cons, hne, if_true]
      rw [ih hmem]

theorem drop_encode_name (pre : List Nat) (r : NotifyRecord) (rest : List Nat) :
    (pre ++ (r.encode ++ rest)).drop (pre.length + 16) = r.name ++ rest := by
  rw [List.drop_append]
  simp only [NotifyRecord.encode, u32_bytes, List.cons_append, List.nil_append, List.drop_succ_cons,
    List.drop_zero]

theorem cstring_encode (pre : List Nat) (r : NotifyRecord) (rest : List Nat) (h : 0 ∈ r.name) :
    cstring (pre ++ (r.encode ++ rest)) (pre.length + 16) = cstring r.name 0 := by
  unfold cstring
  rw [drop_encode_name, takeWhile_nul_append _ _ h, List.drop_zero]

theorem encode_records_cons (r : NotifyRecord) (rs : List NotifyRecord) :
    encode_records (r :: rs) = r.encode ++ encode_records rs := by
  simp [encode_records]

theorem watch_records_cons (cfg : Config) (dirname : String) (env : NotifyEnv) (pos : Nat)
    (r : NotifyRecord) (rs : List NotifyRecord) (w : World) (calls : List RegistryCall) :
    watch_records cfg dirname env pos (r :: rs) w calls =
      if r.name = [] then watch_records cfg dirname env (pos + r.encode.length) rs w calls
      else if r.mask &&& IN_CREATE ≠ 0 then
        watch_records cfg dirname env (pos + r.encode.length) rs
          (open_device cfg (dirname ++ "/" ++ cstring r.name 0) (env.open_env pos) w).2
          (calls ++ [RegistryCall.add (dirname ++ "/" ++ cstring r.name 0)])
      else
        watch_records cfg dirname env (pos + r.encode.length) rs
          (close_device cfg (dirname ++ "/" ++ cstring r.name 0) (env.close_env pos) w).2
          (calls ++ [RegistryCall.remove (dirname ++ "/" ++ cstring r.name 0)]) := by
  rw [watch_records]
  unfold NotifyRecord.call
  split_ifs <;> rfl

theorem read_notify_loop_records (cfg : Config) (dirname : String) (env : NotifyEnv) :
    ∀ (fuel : Nat) (records : List NotifyRecord) (pre post : List Nat) (w : World)
      (calls : List RegistryCall),
      (∀ r ∈ records, r.wf) →
      env.event_buf = pre ++ (encode_records records ++ post) →
      pre.length + (encode_records records).length ≤ 2147483647 →
      read_notify_loop cfg dirname env fuel ((encode_records records).length : Int)
          (pre.length : Int) w calls =
        ((watch_records cfg dirname env pre.length (records.take fuel) w calls).1,
          (watch_records cfg dirname env pre.length (records.take fuel) w calls).2,
          ((encode_records (records.drop fuel)).length : Int)) := by
  intro fuel
  induction fuel with
  | zero =>
    intro records pre post w calls _ _ _
    simp [read_notify_loop, watch_records]
  | succ fuel ih =>
    intro records pre post w calls hwf hbuf hbound
    cases records with
    | nil =>
      rw [read_notify_loop]
      simp [encode_records, watch_records, INOTIFY_EVENT_SIZE]
    | cons r rs =>
      have hwfr := hwf r (List.mem_cons_self _ _)
      have hwfrs : ∀ x ∈ rs, x.wf := fun x hx => hwf x (List.mem_cons_of_mem _ hx)
      have henc := encode_length r
      rw [encode_records_cons] at hbuf hbound ⊢
      rw [List.length_append] at hbound ⊢
      have hbuf2 : env.event_buf = pre ++ (r.encode ++ (encode_records rs ++ post)) := by
        rw [hbuf, List.append_assoc]
      have hbuf3 : env.event_buf = (pre ++ r.encode) ++ (encode_records rs ++ post) := by
        rw [hbuf2, List.append_assoc]
      have hres : ¬ ((r.encode.length + (encode_records rs).length : Nat) : Int)
          < (INOTIFY_EVENT_SIZE : Int) := by
        simp only [INOTIFY_EVENT_SIZE]
        omega
      have hres2 : ¬ ((r.encode.length + (encode_records rs).length : Nat) : Int) < 16 := by
        omega
      have hpos : ((pre.length : Nat) : Int).toNat = pre.length := Int.toNat_ofNat _
      have hmask : le32 env.event_buf (pre.length + 4) = r.mask := by
        rw [hbuf2, le32_append_left]
        exact le32_encode_mask r _ hwfr.1
      have hlen : le32 env.event_buf (pre.length + 12) = r.name.length := by
        rw [hbuf2, le32_append_left]
        exact le32_encode_len r _ (by omega)
      have hsize : wrap32 ((16 : Int) + (r.name.length : Int)) = 16 + (r.name.length : Int) :=
        wrap32_of_range _ (by omega) (by omega)
      have hnext : wrap32 (((r.encode.length + (encode_records rs).length : Nat) : Int)
          - (16 + (r.name.length : Int))) = ((encode_records rs).length : Int) := by
        rw [wrap32_of_range _ (by omega) (by omega)]
        omega
      have hpnext : wrap32 ((pre.length : Int) + (16 + (r.name.length : Int)))
          = ((pre ++ r.encode).length : Int) := by
        rw [wrap32_of_range _ (by omega) (by omega), List.length_append]
        omega
      have hrec := ih rs (pre ++ r.encode) post
      have hpl : (pre ++ r.encode).length = pre.length + r.encode.length := List.length_append _ _
      rw [read_notify_loop]
      simp only [if_neg hres, if_neg hres2, hpos, hmask, hlen, INOTIFY_EVENT_SIZE,
        Nat.cast_ofNat, hsize, hnext, hpnext, List.take_succ_cons, List.drop_succ_cons]
      rw [watch_records_cons]
      by_cases hname : r.name = []
      · have hzero : ¬ r.name.length ≠ 0 := by simp [hname]
        rw [if_neg hzero, if_pos hname, hrec w calls hwfrs hbuf3 (by omega), hpl]
      · have hnz : r.name.length ≠ 0 := by
          intro h0
          exact hname (List.length_eq_zero.1 h0)
        have hnul : 0 ∈ r.name := by
          rcases hwfr.2 with h | h
          · exact absurd h hname
          · exact h
        have hstr : cstring env.event_buf (pre.length + 16) = cstring r.name 0 := by
          rw [hbuf2]
          exact cstring_encode pre r _ hnul
        rw [if_pos hnz, if_neg hname, hstr]
        by_cases hcreate : r.mask &&& IN_CREATE ≠ 0
        · rw [if_pos hcreate, if_pos hcreate, hrec _ _ hwfrs hbuf3 (by omega), hpl]
        · rw [if_neg hcreate, if_neg hcreate, hrec _ _ hwfrs hbuf3 (by omega), hpl]

theorem watch_records_calls (cfg : Config) (dirname : String) (env : NotifyEnv) :
    ∀ (records : List NotifyRecord) (pos : Nat) (w : World) (calls : List RegistryCall),
      (watch_records cfg dirname env pos records w calls).2 =
        calls ++ records.filterMap (NotifyRecord.call dirname) := by
  intro records
  induction records with
  | nil => intro pos w calls; simp [watch_records]
  | cons r rs ih =>
    intro pos w calls
    rw [watch_records]
    cases hc : r.call dirname with
    | none => simp only [ih, List.filterMap_cons, hc]
    | some c => simp only [ih, List.filterMap_cons, hc, List.append_assoc, List.singleton_append]

theorem encode_records_length_ge (records : List NotifyRecord) :
    16 * records.length ≤ (encode_records records).length := by
  induction records with
  | nil => simp [encode_records]
  | cons r rs ih =>
    rw [encode_records_cons, List.length_append, encode_length, List.length_cons]
    omega

/-! ## Scratch buffers: lemmas -/

theorem rotate_logs_buf_loop_eq (logfile : String) (refused : Nat → Bool)
    (href : ∀ i, refused i = false) :
    ∀ (n : Nat) (fs : FS), (∀ i, i ≤ n → (generation logfile i).length < NAME_BUF_SIZE) →
      rotate_logs_buf_loop logfile refused fs n = some (rotate_logs_loop logfile fs n) := by
  intro n
  induction n with
  | zero => intro fs _; rfl
  | succ n ih =>
    intro fs hfit
    have h1 := hfit (n + 1) (le_refl _)
    have h0 := hfit n (by omega)
    have g1 : generation logfile (n + 1) = logfile ++ "." ++ fmt_d 0 ((n + 1 : Nat) : Int) := by
      simp [generation]
    have g0 : generation logfile n = if n = 0 then logfile else logfile ++ "." ++ fmt_d 0 (n : Int) := by
      unfold generation
      rfl
    rw [g1] at h1
    rw [g0] at h0
    rw [rotate_logs_buf_loop, rotate_logs_loop]
    simp only [h1, h0, not_true_eq_false, if_false, rename_sys, href, Bool.false_eq_true]
    exact ih _ (fun i hi => hfit i (by omega))

theorem write_event_buf_ok (cfg : Config) (event : InputEvent) (device_name : String)
    (env : WriteEnv) (refused : Nat → Bool) (w : World) (hok : env.ok)
    (hb1 : (time_text env.tm event.tv_usec).length < BUF_SIZE)
    (hb2 : (name_text device_name).length < BUF_SIZE)
    (hb3 : (event_text event).length < BUF_SIZE) :
    write_event_buf cfg event device_name env refused w =
      if cfg.log_rotate_size > 0 ∧
          (wrap32 (wrap32 (wrap32 (w.bytes_total + (time_text env.tm event.tv_usec).length)
            + (name_text device_name).length) + (event_text event).length)).tdiv 1024
            ≥ cfg.log_rotate_size then
        (rotate_logs_buf cfg refused
            (fputs w.fs cfg.logfile (event_line env.tm event device_name))).map
          (fun fs4 => (0, { w with
                              mirror := w.mirror ++ [event]
                              fs := fs4
                              bytes_total := 0
                              rotations := w.rotations + 1 }))
      else
        some (0, { w with
                mirror := w.mirror ++ [event]
                fs := fputs w.fs cfg.logfile (event_line env.tm event device_name)
                bytes_total :=
                  wrap32 (wrap32 (wrap32 (w.bytes_total
                    + (time_text env.tm event.tv_usec).length)
                    + (name_text device_name).length) + (event_text event).length) }) := by
  obtain ⟨h1, h2, h3, h4, h5⟩ := hok
  have h1n : ¬ env.write_res < 0 := by omega
  unfold write_event_buf
  simp only [if_neg h1n, h2, h3, h4, h5, Bool.not_true, Bool.false_eq_true, if_false,
    hb1, hb2, hb3, not_true_eq_false, fputs_fputs, fputs_fopen_append, event_line]

theorem write_event_buf_overrun (cfg : Config) (event : InputEvent) (device_name : String)
    (env : WriteEnv) (refused : Nat → Bool) (w : World) (hok : env.ok)
    (hb1 : (time_text env.tm event.tv_usec).length < BUF_SIZE)
    (hlong : BUF_SIZE ≤ (name_text device_name).length) :
    write_event_buf cfg event device_name env refused w = none := by
  obtain ⟨h1, h2, h3, h4, h5⟩ := hok
  have h1n : ¬ env.write_res < 0 := by omega
  have hb2 : ¬ (name_text device_name).length < BUF_SIZE := by omega
  unfold write_event_buf
  simp only [if_neg h1n, h2, h3, Bool.not_true, Bool.false_eq_true, if_false, hb1, hb2,
    not_true_eq_false, not_false_eq_true, if_true]

/-- Where nothing overruns an array and no rename is refused, the functions
with the arrays are the functions without them. -/
theorem rotate_logs_buf_eq (cfg : Config) (refused : Nat → Bool) (fs : FS)
    (href : ∀ i, refused i = false)
    (hfit : ∀ i, i ≤ cfg.max_rotated_logs → (generation cfg.logfile i).length < NAME_BUF_SIZE) :
    rotate_logs_buf cfg refused fs = some (rotate_logs cfg fs) :=
  rotate_logs_buf_loop_eq cfg.logfile refused href cfg.max_rotated_logs fs hfit

theorem write_event_buf_eq (cfg : Config) (event : InputEvent) (device_name : String)
    (env : WriteEnv) (refused : Nat → Bool) (w : World)
    (hb1 : (time_text env.tm event.tv_usec).length < BUF_SIZE)
    (hb2 : (name_text device_name).length < BUF_SIZE)
    (hb3 : (event_text event).length < BUF_SIZE)
    (href : ∀ i, refused i = false)
    (hfit : ∀ i, i ≤ cfg.max_rotated_logs → (generation cfg.logfile i).length < NAME_BUF_SIZE) :
    write_event_buf cfg event device_name env refused w
      = some (write_event cfg event device_name env w) := by
  unfold write_event_buf write_event
  simp only [hb1, hb2, hb3, not_true_eq_false, if_false, rotate_logs_buf_eq cfg refused _ href hfit,
    Option.map_some']
  split_ifs <;> rfl

/-! ## Removal -/

/-- C7: when no device entry (index 1 to `nfds - 1`) holds the path,
`close_device` returns the failure status -1 and the whole state, registry
arrays, count and text log included, is what it was. -/
theorem close_device_not_found (cfg : Config) (device : String) (env : CloseEnv) (w : World)
    (h : ∀ i, 1 ≤ i → i < w.nfds → w.device_names[i]? ≠ some (some device)) :
    (close_device cfg device env w).1 = -1 ∧ (close_device cfg device env w).2 = w := by
  have := close_device_loop_not_found cfg device env w (w.nfds - 1) 1
    (fun j hj1 hj2 => h j hj1 (by omega))
  unfold close_device
  rw [this]
  exact ⟨rfl, rfl⟩

/-- Witness for C7: slot 0 of the identity array holds a path that no device
entry holds; removing that path fails and changes nothing. -/
theorem close_device_not_found_witness :
    (close_device cfg1 "/dev/input/event9" closeOk
        { twoDevices with device_names := twoDevices.device_names.set 0 (some "/dev/input/event9") }).1
      = -1 ∧
    (close_device cfg1 "/dev/input/event9" closeOk
        { twoDevices with device_names := twoDevices.device_names.set 0 (some "/dev/input/event9") }).2
      = { twoDevices with device_names := twoDevices.device_names.set 0 (some "/dev/input/event9") } :=
  close_device_not_found cfg1 "/dev/input/event9" closeOk
    { twoDevices with device_names := twoDevices.device_names.set 0 (some "/dev/input/event9") }
    (by
      intro i h1 h2
      have h3 : i < 3 := h2
      interval_cases i <;> decide)

/-- C2 (amended): when some device entry holds the path and the arrays have
their `nfds` slots, `close_device` finds the first entry at index 1 or more
that holds the path.  If the text log can be opened it returns 0 and removes
that entry: `nfds` drops by one, the entries below that index are untouched,
every entry above it moves down by one slot in `device_names` and in `ufds`
alike, and the removal line is appended to the text log.  If the text log
cannot be opened it returns `-errno`, a negative status, and the whole state is
what it was: nothing is removed. -/
theorem close_device_removes_first (cfg : Config) (device : String) (env : CloseEnv) (w : World)
    (hn : w.nfds ≤ w.device_names.length) (hu : w.nfds ≤ w.ufds.length)
    (hheld : ∃ k, 1 ≤ k ∧ k < w.nfds ∧ w.device_names[k]? = some (some device)) :
    ∃ i, 1 ≤ i ∧ i < w.nfds ∧ w.device_names[i]? = some (some device) ∧
      (∀ j, 1 ≤ j → j < i → w.device_names[j]? ≠ some (some device)) ∧
      (env.fopen_ok = true →
        (close_device cfg device env w).1 = 0 ∧
        (close_device cfg device env w).2.nfds + 1 = w.nfds ∧
        (∀ j, j < i →
          (close_device cfg device env w).2.device_names[j]? = w.device_names[j]? ∧
          (close_device cfg device env w).2.ufds[j]? = w.ufds[j]?) ∧
        (∀ j, i ≤ j → j < (close_device cfg device env w).2.nfds →
          (close_device cfg device env w).2.device_names[j]? = w.device_names[j + 1]? ∧
          (close_device cfg device env w).2.ufds[j]? = w.ufds[j + 1]?) ∧
        (close_device cfg device env w).2.fs =
          fputs (fopen_append w.fs cfg.logfile) cfg.logfile
            ("remove device: " ++ device ++ "\n")) ∧
      (env.fopen_ok = false →
        (close_device cfg device env w).1 = -(env.errno : Int) ∧
        (close_device cfg device env w).1 < 0 ∧
        (close_device cfg device env w).2 = w) := by
  classical
  have hex : ∃ k, 1 ≤ k ∧ w.device_names[k]? = some (some device) := by
    obtain ⟨k, h1, _, h3⟩ := hheld
    exact ⟨k, h1, h3⟩
  obtain ⟨k, hk1, hk2, hk3⟩ := hheld
  have hi := Nat.find_spec hex
  have hmin : ∀ j, 1 ≤ j → j < Nat.find hex → w.device_names[j]? ≠ some (some device) :=
    fun j hj1 hj2 hj3 => Nat.find_min hex hj2 ⟨hj1, hj3⟩
  have hle : Nat.find hex ≤ k := Nat.find_min' hex ⟨hk1, hk3⟩
  generalize Nat.find hex = i at hi hmin hle
  have hrun := close_device_loop_found cfg device env w (w.nfds - 1) 1 i hi.1 (by omega) hi.2 hmin
  refine ⟨i, hi.1, by omega, hi.2, hmin, ?_, ?_⟩
  · intro hlog
    have hc : close_device cfg device env w =
        (0, { w with
                fs := fputs (fopen_append w.fs cfg.logfile) cfg.logfile
                        ("remove device: " ++ device ++ "\n")
                device_names := memmove w.device_names i (i + 1) (w.nfds - i - 1)
                ufds := memmove w.ufds i (i + 1) (w.nfds - i - 1)
                nfds := w.nfds - 1 }) := by
      unfold close_device
      rw [hrun, hlog]
      rfl
    rw [hc]
    refine ⟨rfl, ?_, ?_, ?_, rfl⟩
    · show w.nfds - 1 + 1 = w.nfds
      omega
    · intro j hj
      constructor
      · show (memmove w.device_names i (i + 1) (w.nfds - i - 1))[j]? = _
        rw [memmove_getElem? _ _ _ _ (by omega), if_pos hj]
      · show (memmove w.ufds i (i + 1) (w.nfds - i - 1))[j]? = _
        rw [memmove_getElem? _ _ _ _ (by omega), if_pos hj]
    · intro j hj1 hj2
      have hj3 : j < w.nfds - 1 := hj2
      constructor
      · show (memmove w.device_names i (i + 1) (w.nfds - i - 1))[j]? = _
        rw [memmove_getElem? _ _ _ _ (by omega), if_neg (by omega), if_pos (by omega)]
      · show (memmove w.ufds i (i + 1) (w.nfds - i - 1))[j]? = _
        rw [memmove_getElem? _ _ _ _ (by omega), if_neg (by omega), if_pos (by omega)]
  · intro hlog
    have hpos := env.errno_pos
    have hc : close_device cfg device env w = (-(env.errno : Int), w) := by
      unfold close_device
      rw [hrun, hlog]
      rfl
    rw [hc]
    refine ⟨rfl, ?_, rfl⟩
    show -(env.errno : Int) < 0
    omega

/-- Counterexample to C2 as stated: the path is held by the entry at index 1,
but the text log cannot be opened; `close_device` returns `-errno` and the
entry is still there. -/
theorem close_device_log_unopenable :
    twoDevices.device_names[1]? = some (some "/dev/input/event0") ∧
    (close_device cfg1 "/dev/input/event0" closeDenied twoDevices).1 = -13 ∧
    (close_device cfg1 "/dev/input/event0" closeDenied twoDevices).2.nfds = 3 ∧
    (close_device cfg1 "/dev/input/event0" closeDenied
      twoDevices).2.device_names[1]? = some (some "/dev/input/event0") := by
  decide

/-- Witness for C2 (amended): the first of two devices is removed when the
text log can be opened, and stays when it cannot. -/
theorem close_device_removes_first_witness :
    (close_device cfg1 "/dev/input/event0" closeOk twoDevices).2.device_names[1]?
      = some (some "/dev/input/event1") ∧
    (close_device cfg1 "/dev/input/event0" closeOk twoDevices).2.nfds = 2 ∧
    ∃ i, 1 ≤ i ∧ i < twoDevices.nfds ∧
      twoDevices.device_names[i]? = some (some "/dev/input/event0") ∧
      (∀ j, 1 ≤ j → j < i → twoDevices.device_names[j]? ≠ some (some "/dev/input/event0")) ∧
      (closeDenied.fopen_ok = true →
        (close_device cfg1 "/dev/input/event0" closeDenied twoDevices).1 = 0 ∧
        (close_device cfg1 "/dev/input/event0" closeDenied twoDevices).2.nfds + 1
          = twoDevices.nfds ∧
        (∀ j, j < i →
          (close_device cfg1 "/dev/input/event0" closeDenied twoDevices).2.device_names[j]?
            = twoDevices.device_names[j]? ∧
          (close_device cfg1 "/dev/input/event0" closeDenied twoDevices).2.ufds[j]?
            = twoDevices.ufds[j]?) ∧
        (∀ j, i ≤ j →
          j < (close_device cfg1 "/dev/input/event0" closeDenied twoDevices).2.nfds →
          (close_device cfg1 "/dev/input/event0" closeDenied twoDevices).2.device_names[j]?
            = twoDevices.device_names[j + 1]? ∧
          (close_device cfg1 "/dev/input/event0" closeDenied twoDevices).2.ufds[j]?
            = twoDevices.ufds[j + 1]?) ∧
        (close_device cfg1 "/dev/input/event0" closeDenied twoDevices).2.fs =
          fputs (fopen_append twoDevices.fs cfg1.logfile) cfg1.logfile
            ("remove device: " ++ "/dev/input/event0" ++ "\n")) ∧
      (closeDenied.fopen_ok = false →
        (close_device cfg1 "/dev/input/event0" closeDenied twoDevices).1
          = -(closeDenied.errno : Int) ∧
        (close_device cfg1 "/dev/input/event0" closeDenied twoDevices).1 < 0 ∧
        (close_device cfg1 "/dev/input/event0" closeDenied twoDevices).2 = twoDevices) :=
  ⟨by decide, by decide,
    close_device_removes_first cfg1 "/dev/input/event0" closeDenied twoDevices
      (by decide) (by decide) ⟨1, by decide, by decide, by decide⟩⟩

/-! ## Registry invariants -/

/-- C1: after any sequence of `open_device` and `close_device` calls from the
initial registry, whatever each call returned, `nfds` is the number of
registered devices plus one, both arrays have a slot for every index from 1 to
`nfds - 1`, and the entries at these indices are, index by index, the path and
the descriptor (with read interest) of one and the same successful add, in the
order of the adds. -/
theorem registry_arrays_aligned (cfg : Config) (inotify_fd : Int) (fs : FS) (ops : List Op) :
    ((run_ops cfg (World.init inotify_fd fs) ops).nfds : Int) =
      registered_count cfg (World.init inotify_fd fs) ops + 1 ∧
    (run_ops cfg (World.init inotify_fd fs) ops).nfds ≤
      (run_ops cfg (World.init inotify_fd fs) ops).ufds.length ∧
    ((run_ops cfg (World.init inotify_fd fs) ops).nfds = 1 ∨
      (run_ops cfg (World.init inotify_fd fs) ops).nfds ≤
        (run_ops cfg (World.init inotify_fd fs) ops).device_names.length) ∧
    ∃ l : List (String × Int),
      l.Sublist (added cfg (World.init inotify_fd fs) ops) ∧
      l.length + 1 = (run_ops cfg (World.init inotify_fd fs) ops).nfds ∧
      ∀ i, 1 ≤ i → i < (run_ops cfg (World.init inotify_fd fs) ops).nfds →
        ∃ e, l[i - 1]? = some e ∧
          (run_ops cfg (World.init inotify_fd fs) ops).device_names[i]? = some (some e.1) ∧
          ((run_ops cfg (World.init inotify_fd fs) ops).ufds[i]?).map (fun p => (p.fd, p.events))
            = some (e.2, POLLIN) := by
  obtain ⟨l, hal, hsub, hcount⟩ := run_ops_aligned cfg ops (World.init inotify_fd fs) [] []
    (init_aligned inotify_fd fs) (List.Sublist.refl _)
  have hnames : (run_ops cfg (World.init inotify_fd fs) ops).nfds = 1 ∨
      (run_ops cfg (World.init inotify_fd fs) ops).nfds ≤
        (run_ops cfg (World.init inotify_fd fs) ops).device_names.length := by
    by_cases h1 : 1 < (run_ops cfg (World.init inotify_fd fs) ops).nfds
    · exact Or.inr (aligned_names_length hal h1)
    · have := hal.1
      left
      omega
  obtain ⟨h1, h2, h3⟩ := hal
  refine ⟨?_, h2, hnames, l, by simpa using hsub, h1.symm, ?_⟩
  · rw [h1]
    push_cast
    simp at hcount
    omega
  · intro i hi1 hi2
    have hk : i - 1 < l.length := by omega
    have hget : l[i - 1]? = some l[i - 1] := List.getElem?_eq_getElem hk
    have := h3 _ _ hget
    have e1 : i - 1 + 1 = i := by omega
    rw [e1] at this
    exact ⟨l[i - 1], hget, this⟩

/-- Counterexample to C9 as stated: two adds of one path, as two create
notifications for one name produce, leave two device entries with that path. -/
theorem duplicate_path_after_two_adds :
    (run_ops cfg1 (World.init 3 noFiles)
      [Op.add "/dev/input/event0" (openOk 4 "kbd"),
       Op.add "/dev/input/event0" (openOk 5 "kbd")]).nfds = 3 ∧
    (run_ops cfg1 (World.init 3 noFiles)
      [Op.add "/dev/input/event0" (openOk 4 "kbd"),
       Op.add "/dev/input/event0" (openOk 5 "kbd")]).device_names[1]?
      = some (some "/dev/input/event0") ∧
    (run_ops cfg1 (World.init 3 noFiles)
      [Op.add "/dev/input/event0" (openOk 4 "kbd"),
       Op.add "/dev/input/event0" (openOk 5 "kbd")]).device_names[2]?
      = some (some "/dev/input/event0") := by
  decide

/-- C9 (amended): when every add of a sequence of `open_device` and
`close_device` calls from the initial registry is for a path that no device
entry holds at that moment, no two device entries of the resulting registry
hold the same path. -/
theorem paths_unique_of_fresh_adds (cfg : Config) (inotify_fd : Int) (fs : FS) (ops : List Op)
    (hfresh : adds_fresh cfg (World.init inotify_fd fs) ops = true) :
    ∀ i j device, 1 ≤ i → i < j → j < (run_ops cfg (World.init inotify_fd fs) ops).nfds →
      (run_ops cfg (World.init inotify_fd fs) ops).device_names[i]? = some (some device) →
      (run_ops cfg (World.init inotify_fd fs) ops).device_names[j]? ≠ some (some device) := by
  obtain ⟨l, hal, hnd⟩ := run_ops_nodup cfg ops (World.init inotify_fd fs) [] (init_aligned _ _)
    (by simp) hfresh
  obtain ⟨h1, _, h3⟩ := hal
  intro i j device hi hij hj hdi hdj
  have hki : i - 1 < l.length := by omega
  have hkj : j - 1 < l.length := by omega
  have gi := (h3 _ _ (List.getElem?_eq_getElem hki)).1
  have gj := (h3 _ _ (List.getElem?_eq_getElem hkj)).1
  have ei : i - 1 + 1 = i := by omega
  have ej : j - 1 + 1 = j := by omega
  rw [ei, hdi] at gi
  rw [ej, hdj] at gj
  simp at gi gj
  have hmi : i - 1 < (l.map Prod.fst).length := by simpa using hki
  have hmj : j - 1 < (l.map Prod.fst).length := by simpa using hkj
  have heq : (l.map Prod.fst)[i - 1] = (l.map Prod.fst)[j - 1] := by
    simp [← gi, ← gj]
  have := (List.Nodup.getElem_inj_iff hnd).1 heq
  omega

/-- Witness for C9 (amended): a path is added again only after its removal;
the entry at index 2 does not hold the path of the entry at index 1. -/
theorem paths_unique_of_fresh_adds_witness :
    adds_fresh cfg1 (World.init 3 noFiles) reAddOps = true ∧
    (run_ops cfg1 (World.init 3 noFiles) reAddOps).device_names[1]?
      = some (some "/dev/input/event1") ∧
    (run_ops cfg1 (World.init 3 noFiles) reAddOps).device_names[2]?
      ≠ some (some "/dev/input/event1") :=
  ⟨by decide, by decide,
    paths_unique_of_fresh_adds cfg1 3 noFiles reAddOps (by decide) 1 2 "/dev/input/event1"
      (by decide) (by decide) (by decide) (by decide)⟩

/-! ## Rotation of the text log -/

/-- Counterexample to C4 as stated: with two generations kept, generation 1
missing and generation 2 present, the rotation leaves in generation 2 what it
held before, although generation 1 held nothing. -/
theorem rotate_logs_sparse_keeps_top :
    cfg1.max_rotated_logs = 2 ∧ sparseFiles "log.txt.1" = none ∧
    sparseFiles "log.txt.2" = some "old" ∧
    (rotate_logs_buf cfg1 noRefusal sparseFiles).map
        (fun fs => (fs "log.txt", fs "log.txt.1", fs "log.txt.2"))
      = some (none, some "new", some "old") := by
  decide

/-- C4 (amended): let `max_rotated_logs = N >= 1`, let each of the names
`logfile`, `logfile.1`, ..., `logfile.N` fit the name arrays of `rotate_logs`
(at most 63 bytes), and let the system refuse no rename for another reason
than a missing source.  Then, for any set of files, `rotate_logs` completes, and
afterwards every generation `i` from 1 to `N - 1` holds what generation `i - 1`
held, generation `N` holds what generation `N - 1` held when that one existed
and otherwise keeps what it held itself, the bare log file is absent, and no
other file is touched; missing sources stop nothing. -/
theorem rotate_logs_shift (cfg : Config) (refused : Nat → Bool) (fs : FS)
    (hN : 1 ≤ cfg.max_rotated_logs)
    (hfit : ∀ i, i ≤ cfg.max_rotated_logs → (generation cfg.logfile i).length < NAME_BUF_SIZE)
    (href : ∀ i, refused i = false) :
    ∃ fs2 : FS, rotate_logs_buf cfg refused fs = some fs2 ∧
      (∀ i, 1 ≤ i → i < cfg.max_rotated_logs →
        fs2 (generation cfg.logfile i) = fs (generation cfg.logfile (i - 1))) ∧
      fs2 (generation cfg.logfile cfg.max_rotated_logs) =
        (if (fs (generation cfg.logfile (cfg.max_rotated_logs - 1))).isSome
          then fs (generation cfg.logfile (cfg.max_rotated_logs - 1))
          else fs (generation cfg.logfile cfg.max_rotated_logs)) ∧
      fs2 cfg.logfile = none ∧
      (∀ p, (∀ i, i ≤ cfg.max_rotated_logs → p ≠ generation cfg.logfile i) → fs2 p = fs p) := by
  obtain ⟨h1, h2, h3, h4⟩ := rotate_logs_loop_spec cfg.logfile cfg.max_rotated_logs fs
  have hzero : generation cfg.logfile 0 = cfg.logfile := by simp [generation]
  have hrun : rotate_logs_buf cfg refused fs
      = some (rotate_logs_loop cfg.logfile fs cfg.max_rotated_logs) :=
    rotate_logs_buf_loop_eq cfg.logfile refused href cfg.max_rotated_logs fs hfit
  refine ⟨rotate_logs_loop cfg.logfile fs cfg.max_rotated_logs, hrun, h2, h3 hN, ?_, h1⟩
  have := h4 hN
  rw [hzero] at this
  exact this

/-- Witness for C4 (amended): three files present, two generations kept, short
names, no rename refused. -/
theorem rotate_logs_shift_witness :
    (rotate_logs_buf cfg1 noRefusal (fputs sparseFiles "log.txt.1" "mid")).map
        (fun fs => (fs "log.txt", fs "log.txt.1", fs "log.txt.2"))
      = some (none, some "new", some "mid") ∧
    ∃ fs2 : FS, rotate_logs_buf cfg1 noRefusal (fputs sparseFiles "log.txt.1" "mid") = some fs2 ∧
      (∀ i, 1 ≤ i → i < cfg1.max_rotated_logs →
        fs2 (generation cfg1.logfile i)
          = fputs sparseFiles "log.txt.1" "mid" (generation cfg1.logfile (i - 1))) ∧
      fs2 (generation cfg1.logfile cfg1.max_rotated_logs) =
        (if (fputs sparseFiles "log.txt.1" "mid"
              (generation cfg1.logfile (cfg1.max_rotated_logs - 1))).isSome
          then fputs sparseFiles "log.txt.1" "mid"
              (generation cfg1.logfile (cfg1.max_rotated_logs - 1))
          else fputs sparseFiles "log.txt.1" "mid"
              (generation cfg1.logfile cfg1.max_rotated_logs)) ∧
      fs2 cfg1.logfile = none ∧
      (∀ p, (∀ i, i ≤ cfg1.max_rotated_logs → p ≠ generation cfg1.logfile i) →
        fs2 p = fputs sparseFiles "log.txt.1" "mid" p) :=
  ⟨by decide,
   rotate_logs_shift cfg1 noRefusal (fputs sparseFiles "log.txt.1" "mid") (by decide)
     (by
       intro i hi
       have h2 : i ≤ 2 := hi
       interval_cases i <;> decide)
     (fun _ => rfl)⟩

/-- Outside the hypotheses of C4 (amended): a refused rename of the bare log
file leaves it in place, and with a log file name of 62 bytes the name of
generation 1 does not fit `file1`. -/
theorem rotate_logs_buf_outside :
    (rotate_logs_buf cfg1 refuseFirst sparseFiles).map
        (fun fs => (fs "log.txt", fs "log.txt.1", fs "log.txt.2"))
      = some (some "new", none, some "old") ∧
    longLogName.length = 62 ∧
    (rotate_logs_buf { cfg1 with logfile := longLogName } noRefusal sparseFiles).isNone
      = true := by
  decide

/-! ## Event logger -/

set_option maxRecDepth 8000 in
/-- Counterexample to C5 as stated: for a device name of 254 bytes, with every
step of the system succeeding and a valid time, the name text with its
terminating NUL needs 257 bytes of the 256 of `buf`: the call overruns `buf`
and no appended line is defined, while a name of 253 bytes is logged. -/
theorem write_event_name_overruns_buf :
    longName.length = 254 ∧ writeOk.ok ∧ writeOk.tm.valid ∧
    write_event_buf cfg0 event1 longName writeOk noRefusal (World.init 3 noFiles) = none ∧
    (write_event_buf cfg0 event1 (String.mk (List.replicate 253 'a')) writeOk noRefusal
      (World.init 3 noFiles)).map (fun r => r.1) = some 0 :=
  ⟨by decide, by decide, by decide,
   write_event_buf_overrun cfg0 event1 longName writeOk noRefusal (World.init 3 noFiles)
     (by decide) (by decide) (by decide),
   by decide⟩

/-- C5 (amended): for a `write_event` in which every step of the system
succeeds, with a valid broken-down time of a four-digit year, microseconds in
0..999999, 16-bit type and code, and a device name of at most 253 bytes, no text
overruns `buf` and the text appended to the log is exactly the documented line
(time field, name, `: `, type and code as 4 hex digits, the unsigned 32-bit
image of the value as 8 hex digits, newline): the call returns 0 with the line
appended, or, when the threshold is reached, it is the rotation of the files
with the line appended; the length of the line is 27 + len(name) + 2 + 19, and
the triple is read back from its last three fields. -/
theorem write_event_line_format (cfg : Config) (event : InputEvent) (device_name : String)
    (env : WriteEnv) (refused : Nat → Bool) (w : World) (hok : env.ok) (htm : env.tm.valid)
    (h0 : 0 ≤ event.tv_usec) (h1 : event.tv_usec ≤ 999999)
    (ht : event.type < 65536) (hc : event.code < 65536)
    (hname : device_name.length ≤ 253) :
    ((∃ w2 : World,
        write_event_buf cfg event device_name env refused w = some (0, w2) ∧
        w2.fs = fputs w.fs cfg.logfile (spec_line_of env.tm event device_name)) ∨
      write_event_buf cfg event device_name env refused w =
        (rotate_logs_buf cfg refused
            (fputs w.fs cfg.logfile (spec_line_of env.tm event device_name))).map
          (fun fs4 => (0, { w with
                              mirror := w.mirror ++ [event]
                              fs := fs4
                              bytes_total := 0
                              rotations := w.rotations + 1 }))) ∧
    (spec_line_of env.tm event device_name).length = 27 + device_name.length + 2 + 19 ∧
    parse_triple (spec_line_of env.tm event device_name) =
      (event.type, event.code, (event.value % 4294967296).toNat) := by
  have hline := event_line_eq_spec env.tm event device_name htm h0 h1 ht hc
  have hb1 : (time_text env.tm event.tv_usec).length < BUF_SIZE := by
    rw [time_text_eq_spec env.tm event.tv_usec htm h0 h1, spec_time_length]
    decide
  have hb2 : (name_text device_name).length < BUF_SIZE := by
    have h2 : ": ".length = 2 := rfl
    simp only [name_text, String.length_append, h2, BUF_SIZE]
    omega
  have hb3 : (event_text event).length < BUF_SIZE := by
    rw [event_text_eq_spec event ht hc, spec_triple_length]
    decide
  refine ⟨?_, spec_line_length _ _ _ _ _ _ _ _ _ _ _, ?_⟩
  · rw [write_event_buf_ok cfg event device_name env refused w hok hb1 hb2 hb3, hline]
    split_ifs
    · exact Or.inr rfl
    · exact Or.inl ⟨_, rfl, rfl⟩
  · exact parse_triple_spec_line _ _ _ _ _ _ _ _ _ _ _ ht hc (by omega)

/-- Witness for C5 (amended): a key event with value -2 from the device named
`kbd`. -/
theorem write_event_line_format_witness :
    spec_line_of writeOk.tm event1 "kbd" = "[20240105-03:04:05.000012] kbd: 0001 001e fffffffe\n" ∧
    (write_event_buf cfg1 event1 "kbd" writeOk noRefusal (World.init 3 noFiles)).map
        (fun r => (r.1, r.2.fs "log.txt"))
      = some (0, some "[20240105-03:04:05.000012] kbd: 0001 001e fffffffe\n") ∧
    parse_triple (spec_line_of writeOk.tm event1 "kbd") = (1, 30, 4294967294) :=
  ⟨by decide, by decide,
   (write_event_line_format cfg1 event1 "kbd" writeOk noRefusal (World.init 3 noFiles)
      (by decide) (by decide) (by decide) (by decide) (by decide) (by decide)
      (by decide)).2.2⟩

/-! ## Event loop -/

/-- A short read of the watch source, interrupted or not, makes no registry
call and leaves the state as it is; the status is 0 for `EINTR`, 1 otherwise;
and the wake cycle goes on with the device loop as if the watch source had not
been ready, since `main` drops the status. -/
theorem short_watch_read_is_skipped (cfg : Config) (cyc : Cycle) (l : Loop)
    (hshort : cyc.notify.res < (INOTIFY_EVENT_SIZE : Int)) :
    read_notify cfg device_path cyc.notify (poll l.w cyc.revents) =
      (if cyc.notify.errno = EINTR then 0 else 1, poll l.w cyc.revents, []) ∧
    main_cycle cfg cyc l =
      device_loop cfg cyc (l.w.nfds - 1) 1 { l with w := poll l.w cyc.revents } := by
  have hr : read_notify cfg device_path cyc.notify (poll l.w cyc.revents) =
      (if cyc.notify.errno = EINTR then 0 else 1, poll l.w cyc.revents, []) := by
    unfold read_notify
    rw [if_pos hshort]
    split_ifs <;> rfl
  refine ⟨hr, ?_⟩
  unfold main_cycle
  simp only [hr]
  split_ifs <;> rfl

/-- C10: a wake cycle in which the read of the watch source fails with `EIO`
(a short read that is not an interruption): `read_notify` returns 1, where it
returns 0 for an interrupted read, yet the cycle ends without an exit code, and
the loop, still running with `log_fd` open, logs the two events of the next
cycle. -/
theorem watch_read_error_not_fatal :
    cycleWatchError.notify.res < (INOTIFY_EVENT_SIZE : Int) ∧
    cycleWatchError.notify.errno ≠ EINTR ∧
    revents_at (poll twoDevices cycleWatchError.revents) 0 &&& POLLIN ≠ 0 ∧
    (read_notify cfg0 device_path cycleWatchInterrupted.notify
      (poll twoDevices cycleWatchInterrupted.revents)).1 = 0 ∧
    (read_notify cfg0 device_path cycleWatchError.notify
      (poll twoDevices cycleWatchError.revents)).1 = 1 ∧
    (main_cycle cfg0 cycleWatchError (loopTwoDevices 0)).1 = none ∧
    (main_loop cfg0 [cycleWatchError, cycleDevicesReady] (loopTwoDevices 0)).1 = none ∧
    (main_loop cfg0 [cycleWatchError, cycleDevicesReady] (loopTwoDevices 0)).2.log_fd_open
      = true ∧
    (main_loop cfg0 [cycleWatchError, cycleDevicesReady] (loopTwoDevices 0)).2.w.mirror.length
      = 2 := by
  decide

/-! ## Hotplug watcher -/

/-- C11: let the read of the watch source return, at the start of `event_buf`,
the bytes of `k >= 1` complete records, each with a 32-bit mask and, when it has
a name field, a NUL-terminated name in it.  Then the loop of `read_notify` has,
after any number `j` of iterations, handled exactly the first `j` records in
buffer order and is left with the bytes of the others, so that it ends by its
own test after `k` iterations and not before; and `read_notify` returns 0
having made, in this order, one call per record with a name field on
`<dirname>/<name>`, `open_device` when the mask has the create bit and
`close_device` when it has not, and no call for a record without name. -/
theorem read_notify_visits_records (cfg : Config) (dirname : String) (env : NotifyEnv)
    (w : World) (records : List NotifyRecord) (post : List Nat)
    (hne : records ≠ []) (hwf : ∀ r ∈ records, r.wf)
    (hbuf : env.event_buf = encode_records records ++ post)
    (hres : env.res = ((encode_records records).length : Int))
    (hsize : env.event_buf.length ≤ EVENT_BUF_SIZE) :
    (∀ fuel, read_notify_loop cfg dirname env fuel env.res 0 w [] =
      ((watch_records cfg dirname env 0 (records.take fuel) w []).1,
        (records.take fuel).filterMap (NotifyRecord.call dirname),
        ((encode_records (records.drop fuel)).length : Int))) ∧
    (∀ fuel, (read_notify_loop cfg dirname env fuel env.res 0 w []).2.2
        < (INOTIFY_EVENT_SIZE : Int) ↔ records.length ≤ fuel) ∧
    read_notify cfg dirname env w =
      (0, (watch_records cfg dirname env 0 records w []).1,
        records.filterMap (NotifyRecord.call dirname)) := by
  have hlen : (encode_records records).length ≤ 512 := by
    have := hsize
    rw [hbuf, List.length_append] at this
    simp only [EVENT_BUF_SIZE] at this
    omega
  have hloop : ∀ fuel, read_notify_loop cfg dirname env fuel env.res 0 w [] =
      ((watch_records cfg dirname env 0 (records.take fuel) w []).1,
        (records.take fuel).filterMap (NotifyRecord.call dirname),
        ((encode_records (records.drop fuel)).length : Int)) := by
    intro fuel
    have h := read_notify_loop_records cfg dirname env fuel records [] post w [] hwf
      (by rw [hbuf]; rfl) (by simp only [List.length_nil]; omega)
    rw [watch_records_calls] at h
    simp only [List.length_nil, Nat.cast_zero, List.nil_append] at h
    rw [hres]
    exact h
  have hk := encode_records_length_ge records
  have hpos : 0 < records.length := List.length_pos.2 hne
  refine ⟨hloop, ?_, ?_⟩
  · intro fuel
    rw [hloop fuel]
    show ((encode_records (records.drop fuel)).length : Int) < (INOTIFY_EVENT_SIZE : Int) ↔ _
    have hd := encode_records_length_ge (records.drop fuel)
    rw [List.length_drop] at hd
    simp only [INOTIFY_EVENT_SIZE]
    constructor
    · intro h
      omega
    · intro h
      rw [List.drop_of_length_le h]
      simp [encode_records]
  · have hnot : ¬ env.res < (INOTIFY_EVENT_SIZE : Int) := by
      rw [hres]
      simp only [INOTIFY_EVENT_SIZE]
      omega
    have hfuel : records.length ≤ env.res.toNat := by
      rw [hres]
      omega
    unfold read_notify
    rw [if_neg hnot]
    simp only [hloop, List.take_of_length_le hfuel]

/-- Witness for C11: a create record for `event5`, a record without name and a
delete record for `event0`, returned while two devices are registered. -/
theorem read_notify_visits_records_witness :
    notifyThree.event_buf.length ≤ EVENT_BUF_SIZE ∧
    [recordCreate, recordNoName, recordDelete].filterMap (NotifyRecord.call device_path) =
      [RegistryCall.add "/dev/input/event5", RegistryCall.remove "/dev/input/event0"] ∧
    (read_notify cfg0 device_path notifyThree twoDevices).2.1.device_names.take 3 =
      [none, some "/dev/input/event1", some "/dev/input/event5"] ∧
    read_notify cfg0 device_path notifyThree twoDevices =
      (0,
        (watch_records cfg0 device_path notifyThree 0 [recordCreate, recordNoName, recordDelete]
          twoDevices []).1,
        [recordCreate, recordNoName, recordDelete].filterMap (NotifyRecord.call device_path)) :=
  ⟨by decide, by decide, by decide,
   (read_notify_visits_records cfg0 device_path notifyThree twoDevices
      [recordCreate, recordNoName, recordDelete] (List.replicate 16 255) (by decide)
      (by
        intro r hr
        simp only [List.mem_cons, List.mem_singleton, List.not_mem_nil, or_false] at hr
        rcases hr with rfl | rfl | rfl <;> decide)
      rfl (by decide) (by decide)).2.2⟩

end Irecord
